import Mathlib

/-!
# twitchvod: resolving a Twitch video URL to its streaming manifest URL

A shallow embedding of `internal/twitch/client.go`, `internal/twitch/types.go`
and of the `/extract` handler of `cmd/server/main.go`, followed by the
properties proved about them.

Conventions of the embedding:

* a Go `string` is a finite sequence of bytes (`GoString`); source literals
  are the UTF-8 bytes of their text (`lit`);
* a Go result pair `(string, error)` is a pair `GoString × Option GoError`,
  the error being `none` for `nil`; a Go `error` is modelled by its message;
* library calls the repository makes (`strings`, `regexp`, `encoding/json`,
  `net/http`) are modelled by the part of their documented behaviour the
  calls rely on.
-/

namespace twitch

/-! ## Strings -/

/-- A Go string: a finite sequence of bytes. -/
abbrev GoString := List UInt8

/-- A Go `error` value, modelled by its message (`err.Error()`). -/
abbrev GoError := GoString

/-- The bytes of a string literal of the source (Go source text is UTF-8). -/
def lit (s : String) : GoString := s.data.flatMap String.utf8EncodeChar

/-- Go `strings.HasPrefix`: `len(s) >= len(prefix) && s[:len(prefix)] == prefix`. -/
def HasPrefix (s pre : GoString) : Bool :=
  decide (pre.length ≤ s.length) && decide (s.take pre.length = pre)

/-- Go `strings.TrimPrefix`: `s` without the leading `prefix`, or `s` itself
when it does not start with `prefix`. -/
def TrimPrefix (s pre : GoString) : GoString :=
  if HasPrefix s pre then s.drop pre.length else s

/-! ## The regular expression of `ExtractVideoID` -/

/-- The class `\d` of Go regular expressions: the ASCII digits `0` to `9`. -/
def isDigit (b : UInt8) : Bool := decide (0x30 ≤ b) && decide (b ≤ 0x39)

/-- The literal part of the pattern, `twitch\.tv/videos/`: the escaped dot
stands for a dot and nothing else. -/
def videoLiteral : GoString := lit "twitch.tv/videos/"

/-- A match of `twitch\.tv/videos/(\d+)` that starts at the first byte of `s`:
the literal, then the longest run of digits (`+` is greedy and nothing follows
it in the pattern), which must not be empty. The result is the list of
submatches: the whole match, then capture group 1. The pattern is ASCII, and
an ASCII byte is never part of a longer UTF-8 sequence, so matching on bytes
agrees with matching on runes. -/
def matchHere (s : GoString) : Option (List GoString) :=
  if HasPrefix s videoLiteral then
    let ds := (s.drop videoLiteral.length).takeWhile isDigit
    if ds.isEmpty then none else some [videoLiteral ++ ds, ds]
  else none

/-- Go `re.FindStringSubmatch(s)` for `re = twitch\.tv/videos/(\d+)`: the
submatches of the leftmost match, or the empty (nil) slice when there is none. -/
def FindStringSubmatch : GoString → List GoString
  | [] => (matchHere []).getD []
  | b :: s =>
    match matchHere (b :: s) with
    | some m => m
    | none => FindStringSubmatch s

/-- The error of `ExtractVideoID`: `fmt.Errorf("invalid Twitch video URL format")`. -/
def errInvalidURLFormat : GoError := lit "invalid Twitch video URL format"

/-- Go `func (c *Client) ExtractVideoID(url string) (string, error)`; the
receiver is not used by the body. -/
def ExtractVideoID (url : GoString) : GoString × Option GoError :=
  let url := TrimPrefix url (lit "@")
  let «matches» := FindStringSubmatch url
  if h : «matches».length < 2 then
    ([], some errInvalidURLFormat)
  else
    («matches».get ⟨1, by omega⟩, none)

/-! ## UTF-8 (Go package `unicode/utf8`) -/

/-- Go `utf8.RuneError`, the replacement character U+FFFD. -/
def RuneError : Nat := 0xFFFD

/-- Go `utf8.DecodeRuneInString`: the first rune of `p` and its width in
bytes. An empty `p` gives `(RuneError, 0)`; a first byte that does not start a
well-formed UTF-8 sequence gives `(RuneError, 1)`. The accepted ranges are
those of the table `first` and of `acceptRanges` of the library. -/
def DecodeRune (p : GoString) : Nat × Nat :=
  match p.map UInt8.toNat with
  | [] => (RuneError, 0)
  | b0 :: rest =>
    if b0 < 0x80 then (b0, 1)
    else if b0 < 0xC2 then (RuneError, 1)
    else if b0 < 0xE0 then
      match rest with
      | b1 :: _ =>
        if 0x80 ≤ b1 ∧ b1 ≤ 0xBF then (b0 % 32 * 64 + b1 % 64, 2) else (RuneError, 1)
      | [] => (RuneError, 1)
    else if b0 < 0xF0 then
      let lo := if b0 = 0xE0 then 0xA0 else 0x80
      let hi := if b0 = 0xED then 0x9F else 0xBF
      match rest with
      | b1 :: b2 :: _ =>
        if lo ≤ b1 ∧ b1 ≤ hi ∧ 0x80 ≤ b2 ∧ b2 ≤ 0xBF then
          (b0 % 16 * 4096 + b1 % 64 * 64 + b2 % 64, 3)
        else (RuneError, 1)
      | _ => (RuneError, 1)
    else if b0 < 0xF5 then
      let lo := if b0 = 0xF0 then 0x90 else 0x80
      let hi := if b0 = 0xF4 then 0x8F else 0xBF
      match rest with
      | b1 :: b2 :: b3 :: _ =>
        if lo ≤ b1 ∧ b1 ≤ hi ∧ 0x80 ≤ b2 ∧ b2 ≤ 0xBF ∧ 0x80 ≤ b3 ∧ b3 ≤ 0xBF then
          (b0 % 8 * 262144 + b1 % 64 * 4096 + b2 % 64 * 64 + b3 % 64, 4)
        else (RuneError, 1)
      | _ => (RuneError, 1)
    else (RuneError, 1)

/-- Go `utf8.AppendRune(nil, r)` for a rune `r ≥ 0`: the UTF-8 encoding of
`r`, and that of `RuneError` when `r` is a surrogate or above U+10FFFF. -/
def EncodeRune (r : Nat) : GoString :=
  if r ≤ 0x7F then [UInt8.ofNat r]
  else if r ≤ 0x7FF then [UInt8.ofNat (0xC0 + r / 64), UInt8.ofNat (0x80 + r % 64)]
  else if 0x10FFFF < r ∨ (0xD800 ≤ r ∧ r ≤ 0xDFFF) then [0xEF, 0xBF, 0xBD]
  else if r ≤ 0xFFFF then
    [UInt8.ofNat (0xE0 + r / 4096), UInt8.ofNat (0x80 + r / 64 % 64), UInt8.ofNat (0x80 + r % 64)]
  else
    [UInt8.ofNat (0xF0 + r / 262144), UInt8.ofNat (0x80 + r / 4096 % 64),
      UInt8.ofNat (0x80 + r / 64 % 64), UInt8.ofNat (0x80 + r % 64)]

/-- The loop `for i < len(s) { r, size := utf8.DecodeRuneInString(s[i:]); ...;
i += size }` that the library runs over a string, bounded by a number of
steps: the pairs (rune, its bytes) of `s` in order. -/
def decodeRunes : Nat → GoString → List (Nat × GoString)
  | 0, _ => []
  | fuel + 1, s =>
    if s.isEmpty then []
    else
      let rs := DecodeRune s
      (rs.1, s.take rs.2) :: decodeRunes fuel (s.drop rs.2)

/-- The runes of a string, an ill-formed byte counting as one `RuneError`.
Every step consumes at least one byte, so `len(s)` steps reach the end. -/
def stringRunes (s : GoString) : List Nat := (decodeRunes s.length s).map Prod.fst

/-- A continuation byte of UTF-8, `0x80` to `0xBF`. -/
def isCont (b : UInt8) : Bool := decide (0x80 ≤ b.toNat) && decide (b.toNat ≤ 0xBF)

/-- Go `utf8.ValidString`: `s` is a sequence of well-formed UTF-8 encodings
(RFC 3629: no overlong form, no surrogate, nothing above U+10FFFF). -/
def ValidString : GoString → Bool
  | [] => true
  | b0 :: rest =>
    if b0.toNat < 0x80 then ValidString rest
    else if b0.toNat < 0xC2 then false
    else if b0.toNat < 0xE0 then
      match rest with
      | b1 :: rest1 => isCont b1 && ValidString rest1
      | [] => false
    else if b0.toNat < 0xF0 then
      match rest with
      | b1 :: b2 :: rest2 =>
        isCont b1 && isCont b2 && !(b0.toNat == 0xE0 && decide (b1.toNat < 0xA0))
          && !(b0.toNat == 0xED && decide (0x9F < b1.toNat)) && ValidString rest2
      | _ => false
    else if b0.toNat < 0xF5 then
      match rest with
      | b1 :: b2 :: b3 :: rest3 =>
        isCont b1 && isCont b2 && isCont b3 && !(b0.toNat == 0xF0 && decide (b1.toNat < 0x90))
          && !(b0.toNat == 0xF4 && decide (0x8F < b1.toNat)) && ValidString rest3
      | _ => false
    else false

/-! ## Go package `strings`: `Index`, `Count`, `Split` -/

/-- Go `strings.Index(s, substr)`: the offset of the first occurrence of
`substr` in `s`; `none` stands for the result `-1`. -/
def Index : GoString → GoString → Option Nat
  | [], sep => if HasPrefix [] sep then some 0 else none
  | b :: s, sep =>
    if HasPrefix (b :: s) sep then some 0 else (Index s sep).map (fun i => i + 1)

/-- The loop of `strings.Count` for a separator that is not empty, bounded by
a number of steps: the number of non-overlapping occurrences of `sep`. -/
def countLoop (sep : GoString) : Nat → GoString → Nat
  | 0, _ => 0
  | fuel + 1, s =>
    match Index s sep with
    | none => 0
    | some i => countLoop sep fuel (s.drop (i + sep.length)) + 1

/-- Go `strings.Count(s, substr)`: for the empty separator one more than the
number of runes, otherwise the number of non-overlapping occurrences (every
turn of the loop consumes at least one byte, so `len(s)` turns are enough). -/
def Count (s sep : GoString) : Nat :=
  if sep.isEmpty then (stringRunes s).length + 1 else countLoop sep s.length s

/-- Go `strings.explode(s, -1)`: `s` cut into its UTF-8 sequences, an
ill-formed byte being replaced by the encoding of `RuneError`. -/
def explode (s : GoString) : List GoString :=
  (decodeRunes s.length s).map
    (fun rb => if rb.1 = RuneError then EncodeRune RuneError else rb.2)

/-- The loop `for i < n` of `strings.genSplit` with `sepSave = 0`: at most `n`
cuts at the successive occurrences of `sep`, then the remainder. -/
def splitLoop (sep : GoString) : Nat → GoString → List GoString
  | 0, s => [s]
  | n + 1, s =>
    match Index s sep with
    | none => [s]
    | some m => s.take m :: splitLoop sep n (s.drop (m + sep.length))

/-- Go `strings.Split(s, sep)`, that is `genSplit(s, sep, 0, -1)`: with
`n = Count(s, sep) + 1` pieces, the loop makes `n - 1` cuts. -/
def Split (s sep : GoString) : List GoString :=
  if sep.isEmpty then explode s else splitLoop sep (Count s sep) s

/-! ## JSON documents (Go package `encoding/json`)

`json.Marshal` and `json.Unmarshal` are modelled at the level of the JSON
document: the tree of values that the JSON text denotes. The text itself
(punctuation, escapes, white space) is the concern of the library; the
reading of a text into its document is a parameter of the network
environment below. -/

deriving instance DecidableEq for Except

/-- A JSON document. A string is the sequence of its Unicode code points; a
number written without fraction and exponent is `int`, any other number is
`float` with its text; an object keeps its members in the order of the text. -/
inductive Json where
  | null
  | bool (b : Bool)
  | int (v : Int)
  | float (literal : GoString)
  | str (runes : List Nat)
  | arr (items : List Json)
  | obj (fields : List (List Nat × Json))

/-- The code points of a name of the source, as a JSON object key. -/
def key (s : String) : List Nat := s.data.map Char.toNat

/-- The code points of a string literal of the source, as a JSON string. -/
def jstr (s : String) : Json := Json.str (s.data.map Char.toNat)

/-- The encoding of a Go string by `json.Marshal`: "String values encode as
JSON strings coerced to valid UTF-8, replacing invalid bytes with the Unicode
replacement rune." -/
def marshalString (s : GoString) : Json := Json.str (stringRunes s)

/-- The word by which `json.UnmarshalTypeError` names a JSON value. -/
def Json.kind : Json → GoString
  | .null => lit "null"
  | .bool _ => lit "bool"
  | .int _ => lit "number"
  | .float _ => lit "number"
  | .str _ => lit "string"
  | .arr _ => lit "array"
  | .obj _ => lit "object"

/-- Go `json.UnmarshalTypeError`: a JSON value that does not fit the Go type
it is decoded into. -/
structure UnmarshalTypeError where
  Value : GoString
  GoType : GoString
  deriving DecidableEq

/-- The message of an `UnmarshalTypeError` (without the struct field, which
the library adds in a form that depends on its version). -/
def UnmarshalTypeError.Error (e : UnmarshalTypeError) : GoError :=
  lit "json: cannot unmarshal " ++ e.Value ++ lit " into Go value of type " ++ e.GoType

/-- The folding of a rune under which `json.Unmarshal` compares an object key
with a field name when no field has exactly the key. ASCII letters fold to
upper case, the Kelvin sign U+212A to `K` and the long s U+017F to `S`; every
other rune folds to a rune outside ASCII, kept as it is here, which decides
the comparison with the ASCII names of this package in the same way. -/
def foldRune (r : Nat) : Nat :=
  if 0x61 ≤ r ∧ r ≤ 0x7A then r - 0x20
  else if r = 0x212A then 0x4B
  else if r = 0x17F then 0x53
  else r

/-- The index, among the JSON names of the fields of a struct, of the field
an object key denotes: a field with exactly that name, or else the first
field whose name is equal under folding; `none` when the key is unknown (it
is then skipped). -/
def lookupField (names : List (List Nat)) (k : List Nat) : Option Nat :=
  match names.indexOf? k with
  | some i => some i
  | none => (names.map (List.map foldRune)).indexOf? (k.map foldRune)

/-- The decoding into a Go `string` holding `cur`: `null` leaves it as it
is, a JSON string sets it to the UTF-8 encoding of its code points. -/
def unmarshalString (cur : GoString) : Json → Except UnmarshalTypeError GoString
  | .null => .ok cur
  | .str rs => .ok (rs.flatMap EncodeRune)
  | j => .error ⟨j.kind, lit "string"⟩

/-- The range of the Go type `int` (64 bits). -/
def inInt (v : Int) : Prop := -2 ^ 63 ≤ v ∧ v < 2 ^ 63

instance (v : Int) : Decidable (inInt v) := by unfold inInt; infer_instance

/-- The decoding into a Go `int` holding `cur`: `null` leaves it as it is, a
number must be written as an integer and fit 64 bits. -/
def unmarshalInt (cur : Int) : Json → Except UnmarshalTypeError Int
  | .null => .ok cur
  | .int v => if inInt v then .ok v else .error ⟨lit "number", lit "int"⟩
  | j => .error ⟨j.kind, lit "int"⟩

/-- The decoding into a Go struct holding `cur`: `null` leaves it as it is;
the members of an object are taken in order, each decoded into the field its
key denotes (`setField`), so that of two members with one key the later one
is decoded over the result of the earlier one. -/
def unmarshalStruct {α : Type} (typeName : GoString)
    (setField : α → List Nat → Json → Except UnmarshalTypeError α) (cur : α) :
    Json → Except UnmarshalTypeError α
  | .null => .ok cur
  | .obj fields => fields.foldlM (fun acc kv => setField acc kv.1 kv.2) cur
  | j => .error ⟨j.kind, typeName⟩

/-- The decoding into a Go slice that is nil or empty: `null` gives the nil
slice, an array gives its elements decoded in order, each into a zero value. -/
def unmarshalSlice {α : Type} (typeName : GoString)
    (elem : Json → Except UnmarshalTypeError α) : Json → Except UnmarshalTypeError (List α)
  | .null => .ok []
  | .arr items => items.mapM elem
  | j => .error ⟨j.kind, typeName⟩

/-! ## `internal/twitch/types.go` -/

/-- Go `type GraphQLVariables struct`: `VideoID` is tagged `json:"videoID,omitempty"`
and `VodID` is tagged `json:"vodID,omitempty"`. -/
structure GraphQLVariables where
  VideoID : GoString := []
  VodID : GoString := []
  deriving DecidableEq

/-- Go `type PersistedQuery struct`: `Version int` is tagged `json:"version"` and
`Sha256Hash string` is tagged `json:"sha256Hash"`. -/
structure PersistedQuery where
  Version : Int := 0
  Sha256Hash : GoString := []
  deriving DecidableEq

/-- Go `type GraphQLExtensions struct`: `PersistedQuery` is tagged
`json:"persistedQuery"`. -/
structure GraphQLExtensions where
  PersistedQuery : PersistedQuery := {}
  deriving DecidableEq

/-- Go `type GraphQLOperation struct`: the fields are tagged
`json:"operationName"`, `json:"variables"` and `json:"extensions"`. -/
structure GraphQLOperation where
  OperationName : GoString := []
  Variables : GraphQLVariables := {}
  Extensions : GraphQLExtensions := {}
  deriving DecidableEq

/-- Go `type TwitchGraphQLRequest []GraphQLOperation`. -/
abbrev TwitchGraphQLRequest := List GraphQLOperation

/-- Go `type GraphQLVideo struct`: `SeekPreviewsURL` is tagged
`json:"seekPreviewsURL"`. -/
structure GraphQLVideo where
  SeekPreviewsURL : GoString := []
  deriving DecidableEq

/-- Go `type GraphQLData struct`: `Video` is tagged `json:"video"`. -/
structure GraphQLData where
  Video : GraphQLVideo := {}
  deriving DecidableEq

/-- Go `type GraphQLResponseItem struct`: `Data` is tagged `json:"data"`. -/
structure GraphQLResponseItem where
  Data : GraphQLData := {}
  deriving DecidableEq

/-- Go `type TwitchGraphQLResponse []GraphQLResponseItem`. -/
abbrev TwitchGraphQLResponse := List GraphQLResponseItem

/-! ### `json.Marshal` on the types of `types.go` -/

/-- A field tagged `omitempty` is left out when it is the empty string. -/
def GraphQLVariables.toJson (v : GraphQLVariables) : Json :=
  Json.obj
    ((if v.VideoID.isEmpty then [] else [(key "videoID", marshalString v.VideoID)]) ++
     (if v.VodID.isEmpty then [] else [(key "vodID", marshalString v.VodID)]))

def PersistedQuery.toJson (p : PersistedQuery) : Json :=
  Json.obj [(key "version", Json.int p.Version), (key "sha256Hash", marshalString p.Sha256Hash)]

def GraphQLExtensions.toJson (e : GraphQLExtensions) : Json :=
  Json.obj [(key "persistedQuery", e.PersistedQuery.toJson)]

def GraphQLOperation.toJson (o : GraphQLOperation) : Json :=
  Json.obj [(key "operationName", marshalString o.OperationName),
    (key "variables", o.Variables.toJson), (key "extensions", o.Extensions.toJson)]

/-- The document `json.Marshal(request)` writes for a `TwitchGraphQLRequest`.
(A nil slice would be written `null`; lists do not tell nil from empty, and
both are read back as they were written.) -/
def marshalRequest (r : TwitchGraphQLRequest) : Json := Json.arr (r.map GraphQLOperation.toJson)

def GraphQLVideo.toJson (v : GraphQLVideo) : Json :=
  Json.obj [(key "seekPreviewsURL", marshalString v.SeekPreviewsURL)]

def GraphQLData.toJson (d : GraphQLData) : Json := Json.obj [(key "video", d.Video.toJson)]

def GraphQLResponseItem.toJson (i : GraphQLResponseItem) : Json :=
  Json.obj [(key "data", i.Data.toJson)]

/-- The document `json.Marshal(response)` writes for a `TwitchGraphQLResponse`. -/
def marshalResponse (r : TwitchGraphQLResponse) : Json :=
  Json.arr (r.map GraphQLResponseItem.toJson)

/-! ### `json.Unmarshal` on the types of `types.go` -/

def GraphQLVariables.setField (cur : GraphQLVariables) (k : List Nat) (j : Json) :
    Except UnmarshalTypeError GraphQLVariables :=
  match lookupField [key "videoID", key "vodID"] k with
  | some 0 => (unmarshalString cur.VideoID j).map (fun s => { cur with VideoID := s })
  | some 1 => (unmarshalString cur.VodID j).map (fun s => { cur with VodID := s })
  | _ => .ok cur

def GraphQLVariables.fromJson (cur : GraphQLVariables) (j : Json) :
    Except UnmarshalTypeError GraphQLVariables :=
  unmarshalStruct (lit "twitch.GraphQLVariables") GraphQLVariables.setField cur j

def PersistedQuery.setField (cur : PersistedQuery) (k : List Nat) (j : Json) :
    Except UnmarshalTypeError PersistedQuery :=
  match lookupField [key "version", key "sha256Hash"] k with
  | some 0 => (unmarshalInt cur.Version j).map (fun v => { cur with Version := v })
  | some 1 => (unmarshalString cur.Sha256Hash j).map (fun s => { cur with Sha256Hash := s })
  | _ => .ok cur

def PersistedQuery.fromJson (cur : PersistedQuery) (j : Json) :
    Except UnmarshalTypeError PersistedQuery :=
  unmarshalStruct (lit "twitch.PersistedQuery") PersistedQuery.setField cur j

def GraphQLExtensions.setField (cur : GraphQLExtensions) (k : List Nat) (j : Json) :
    Except UnmarshalTypeError GraphQLExtensions :=
  match lookupField [key "persistedQuery"] k with
  | some 0 => (cur.PersistedQuery.fromJson j).map (fun p => { cur with PersistedQuery := p })
  | _ => .ok cur

def GraphQLExtensions.fromJson (cur : GraphQLExtensions) (j : Json) :
    Except UnmarshalTypeError GraphQLExtensions :=
  unmarshalStruct (lit "twitch.GraphQLExtensions") GraphQLExtensions.setField cur j

def GraphQLOperation.setField (cur : GraphQLOperation) (k : List Nat) (j : Json) :
    Except UnmarshalTypeError GraphQLOperation :=
  match lookupField [key "operationName", key "variables", key "extensions"] k with
  | some 0 => (unmarshalString cur.OperationName j).map (fun s => { cur with OperationName := s })
  | some 1 => (cur.Variables.fromJson j).map (fun v => { cur with Variables := v })
  | some 2 => (cur.Extensions.fromJson j).map (fun e => { cur with Extensions := e })
  | _ => .ok cur

def GraphQLOperation.fromJson (cur : GraphQLOperation) (j : Json) :
    Except UnmarshalTypeError GraphQLOperation :=
  unmarshalStruct (lit "twitch.GraphQLOperation") GraphQLOperation.setField cur j

/-- The value `json.Unmarshal` decodes a document into, for a variable of
type `TwitchGraphQLRequest` that was nil, or the first type error met. -/
def unmarshalRequest (j : Json) : Except UnmarshalTypeError TwitchGraphQLRequest :=
  unmarshalSlice (lit "twitch.TwitchGraphQLRequest") (GraphQLOperation.fromJson {}) j

def GraphQLVideo.setField (cur : GraphQLVideo) (k : List Nat) (j : Json) :
    Except UnmarshalTypeError GraphQLVideo :=
  match lookupField [key "seekPreviewsURL"] k with
  | some 0 => (unmarshalString cur.SeekPreviewsURL j).map (fun s => { cur with SeekPreviewsURL := s })
  | _ => .ok cur

def GraphQLVideo.fromJson (cur : GraphQLVideo) (j : Json) :
    Except UnmarshalTypeError GraphQLVideo :=
  unmarshalStruct (lit "twitch.GraphQLVideo") GraphQLVideo.setField cur j

def GraphQLData.setField (cur : GraphQLData) (k : List Nat) (j : Json) :
    Except UnmarshalTypeError GraphQLData :=
  match lookupField [key "video"] k with
  | some 0 => (cur.Video.fromJson j).map (fun v => { cur with Video := v })
  | _ => .ok cur

def GraphQLData.fromJson (cur : GraphQLData) (j : Json) :
    Except UnmarshalTypeError GraphQLData :=
  unmarshalStruct (lit "twitch.GraphQLData") GraphQLData.setField cur j

def GraphQLResponseItem.setField (cur : GraphQLResponseItem) (k : List Nat) (j : Json) :
    Except UnmarshalTypeError GraphQLResponseItem :=
  match lookupField [key "data"] k with
  | some 0 => (cur.Data.fromJson j).map (fun d => { cur with Data := d })
  | _ => .ok cur

def GraphQLResponseItem.fromJson (cur : GraphQLResponseItem) (j : Json) :
    Except UnmarshalTypeError GraphQLResponseItem :=
  unmarshalStruct (lit "twitch.GraphQLResponseItem") GraphQLResponseItem.setField cur j

/-- The value `json.Unmarshal` decodes a document into, for a variable of
type `TwitchGraphQLResponse` that was nil, or the first type error met. -/
def unmarshalResponse (j : Json) : Except UnmarshalTypeError TwitchGraphQLResponse :=
  unmarshalSlice (lit "twitch.TwitchGraphQLResponse") (GraphQLResponseItem.fromJson {}) j

/-! ## Go package `net/http`, as far as the client uses it -/

/-- Bytes allowed in an HTTP token (a method, a header name): the letters,
the digits and the marks of RFC 7230. -/
def isTokenByte (b : UInt8) : Bool :=
  (decide (0x30 ≤ b) && decide (b ≤ 0x39)) || (decide (0x41 ≤ b) && decide (b ≤ 0x5A)) ||
  (decide (0x61 ≤ b) && decide (b ≤ 0x7A)) ||
  (lit "!#$%&*+-.^_|~").contains b || b == 0x27 || b == 0x60

/-- The letter case of a canonical header name: upper case at the start and
after a hyphen, lower case elsewhere. -/
def canonicalCase : Bool → GoString → GoString
  | _, [] => []
  | upper, b :: s =>
    let c := if upper && decide (0x61 ≤ b) && decide (b ≤ 0x7A) then b - 0x20
      else if !upper && decide (0x41 ≤ b) && decide (b ≤ 0x5A) then b + 0x20
      else b
    c :: canonicalCase (b == 0x2D) s

/-- Go `http.CanonicalHeaderKey`: a name with a byte that is not allowed in a
header name is returned unchanged. -/
def CanonicalHeaderKey (s : GoString) : GoString :=
  if s.all isTokenByte then canonicalCase true s else s

/-- Go `http.Header`, a map from canonical names to lists of values, as an
association list with one entry a name. -/
abbrev Header := List (GoString × List GoString)

/-- Go `Header.Set`: the values of the canonical form of `k` become `[v]`. -/
def Header.Set (h : Header) (k v : GoString) : Header :=
  (CanonicalHeaderKey k, [v]) :: h.filter (fun e => e.1 != CanonicalHeaderKey k)

/-- Go `Header.Get`: the first value of the canonical form of `k`, or `""`. -/
def Header.Get (h : Header) (k : GoString) : GoString :=
  match h.lookup (CanonicalHeaderKey k) with
  | some (v :: _) => v
  | _ => []

/-- Go `http.Request`, with the fields the client sets. `URL` is the text
the request was created with; `Body` is the JSON document whose text is the
body of the request. -/
structure Request where
  Method : GoString
  URL : GoString
  Header : Header
  Body : Json

/-- A request as the client hands it to its HTTP transport (Go
`http.Request` again): the first one of an exchange is the request given to
`Do`, the later ones are the ones the client builds to follow redirects, and
these may have no body. -/
structure TransportRequest where
  Method : GoString
  URL : GoString
  Header : Header
  Body : Option Json

/-- The request given to `Do`, as the transport receives it. -/
def Request.toTransport (req : Request) : TransportRequest :=
  { Method := req.Method, URL := req.URL, Header := req.Header, Body := some req.Body }

/-- Go `http.Response`: the status code, the header, and the outcome of
reading the body to its end with `io.ReadAll(resp.Body)`. -/
structure HTTPResponse where
  StatusCode : Nat
  Body : Except GoError GoString
  Header : Header := []
  deriving DecidableEq

/-- What lies outside the repository and decides a call of `GetVideoInfo`:
`urlParse` is the error of `url.Parse` (`none` for a URL it accepts);
`RoundTrip` is the HTTP transport, one request for one response; `resolve` is
`req.URL.Parse(loc)`, the target of a redirect from its `Location`;
`trusted` tells whether sensitive headers are forwarded from a first URL to
the target of a redirect; `referer` is the `Referer` the client adds for a
redirect between two URLs (`""` for none); `urlError` is the message of the
`*url.Error` in which `Do` wraps its errors; `jsonParse` is the reading of a
text as a JSON document, with the syntax error of a text that is not JSON. -/
structure Env where
  urlParse : GoString → Option GoError
  RoundTrip : TransportRequest → Except GoError HTTPResponse
  resolve : GoString → GoString → Except GoError GoString
  trusted : GoString → GoString → Bool
  referer : GoString → GoString → GoString
  urlError : GoString → GoError → GoError
  jsonParse : GoString → Except GoError Json

/-- Go `http.redirectBehavior` for a first request whose body can be sent
again (`http.NewRequest` sets `GetBody` for a `*bytes.Buffer`): the method of
the next request, whether the response is to be followed, and whether the
body goes with it. After 301, 302 and 303 a method other than GET and HEAD
becomes GET and the body is dropped; after 307 and 308 both are kept. -/
def redirectBehavior (reqMethod : GoString) (statusCode : Nat) : GoString × Bool × Bool :=
  if statusCode = 301 ∨ statusCode = 302 ∨ statusCode = 303 then
    (if reqMethod ≠ lit "GET" ∧ reqMethod ≠ lit "HEAD" then lit "GET" else reqMethod, true, false)
  else if statusCode = 307 ∨ statusCode = 308 then (reqMethod, true, true)
  else (lit "", false, false)

/-- The headers the client does not forward to a target it does not trust. -/
def isSensitiveHeader (k : GoString) : Bool :=
  [lit "Authorization", lit "Www-Authenticate", lit "Cookie", lit "Cookie2"].contains
    (CanonicalHeaderKey k)

/-- The request the client builds to follow a redirect to `u`: the method
and the body that `redirectBehavior` decided, the headers of the first
request (the sensitive ones only for a trusted target), and the `Referer`. -/
def nextRequest (env : Env) (ireq req : TransportRequest) (redirectMethod : GoString)
    (includeBody : Bool) (u : GoString) : TransportRequest :=
  let header := ireq.Header.filter (fun e => !isSensitiveHeader e.1 || env.trusted ireq.URL u)
  let ref := env.referer req.URL u
  { Method := redirectMethod,
    URL := u,
    Header := if ref.isEmpty then header else Header.Set header (lit "Referer") ref,
    Body := if includeBody then ireq.Body else none }

/-- The loop of Go `(*http.Client).do` for the client `&http.Client{}` (no
`CheckRedirect`, no cookie jar, no timeout): `req` is handed to the transport;
a response that is a redirect with a `Location` is followed by a new request,
unless 10 requests were made already. The result is the result of `Do` and
the requests handed to the transport, `via` being those made before `req`.
The first argument bounds the number of turns. -/
def clientLoop (env : Env) (ireq : TransportRequest) :
    Nat → TransportRequest → List TransportRequest →
      Except GoError HTTPResponse × List TransportRequest
  | 0, req, via => (.error (env.urlError req.URL (lit "stopped after 10 redirects")), via)
  | fuel + 1, req, via =>
    let reqs := via ++ [req]
    match env.RoundTrip req with
    | .error err => (.error (env.urlError req.URL err), reqs)
    | .ok resp =>
      let behavior := redirectBehavior req.Method resp.StatusCode
      if !behavior.2.1 then (.ok resp, reqs)
      else
        let loc := resp.Header.Get (lit "Location")
        if loc.isEmpty then (.ok resp, reqs)
        else
          match env.resolve req.URL loc with
          | .error err =>
            (.error (env.urlError req.URL (lit "failed to parse Location header: " ++ err)), reqs)
          | .ok u =>
            if 10 ≤ reqs.length then
              (.error (env.urlError loc (lit "stopped after 10 redirects")), reqs)
            else
              clientLoop env ireq fuel
                (nextRequest env ireq req behavior.1 behavior.2.2 u) reqs

/-- Go `httpClient.Do(req)` for the client `&http.Client{}` that `New`
builds: the result, and the requests handed to the transport on the way. -/
def clientDo (env : Env) (req : Request) : Except GoError HTTPResponse × List TransportRequest :=
  clientLoop env req.toTransport 10 req.toTransport []

/-- The result of `httpClient.Do(req)`. -/
def Env.Do (env : Env) (req : Request) : Except GoError HTTPResponse := (clientDo env req).1

/-- Go `http.NewRequest(method, url, body)`: the empty method stands for
`GET`, the method must be a token and the URL must parse; the new request has
an empty header. -/
def NewRequest (env : Env) (method url : GoString) (body : Json) : Except GoError Request :=
  let method := if method.isEmpty then lit "GET" else method
  if !(method.all isTokenByte) then .error (lit "net/http: invalid method")
  else
    match env.urlParse url with
    | some err => .error err
    | none => .ok { Method := method, URL := url, Header := [], Body := body }

/-- Go `json.Marshal(request)` for a `TwitchGraphQLRequest`: it has no value
the encoder refuses, so there is always a document. -/
def jsonMarshal (request : TwitchGraphQLRequest) : Except GoError Json :=
  .ok (marshalRequest request)

/-- Go `json.Unmarshal(body, &response)` for a nil `TwitchGraphQLResponse`:
the text is read as a document, then the document is decoded. -/
def jsonUnmarshal (env : Env) (body : GoString) : Except GoError TwitchGraphQLResponse :=
  match env.jsonParse body with
  | .error err => .error err
  | .ok j =>
    match unmarshalResponse j with
    | .error e => .error e.Error
    | .ok response => .ok response

/-! ## `internal/twitch/client.go` -/

/-- Go `type Client struct`. The field `httpClient`, always `&http.Client{}`
after `New`, is the client of `clientDo` over the transport of the environment. -/
structure Client where
  clientID : GoString
  baseURL : GoString
  deriving DecidableEq

/-- Go `func New(clientID, baseURL string) *Client`. -/
def New (clientID baseURL : GoString) : Client :=
  { clientID := clientID, baseURL := baseURL }

/-- The value `request` that `GetVideoInfo` builds first. -/
def requestPayload (videoID : GoString) : TwitchGraphQLRequest :=
  [ { OperationName := lit "VideoPlayer_VODSeekbarPreviewVideo",
      Variables := { VideoID := videoID },
      Extensions := { PersistedQuery := {
        Version := 1,
        Sha256Hash := lit "07e99e4d56c5a7c67117a154777b0baf85a5ffefa393b213f4bc712ccaf85dd6" } } },
    { OperationName := lit "ComscoreStreamingQuery",
      Variables := { VodID := videoID },
      Extensions := { PersistedQuery := {
        Version := 1,
        Sha256Hash := lit "e1edae8122517d013405f237ffcc124515dc6ded82480a88daef69c83b53ac01" } } },
    { OperationName := lit "VodChannelLoginQuery",
      Variables := { VideoID := videoID },
      Extensions := { PersistedQuery := {
        Version := 1,
        Sha256Hash := lit "0c5feea4dad2565508828f16e53fe62614edf015159df4b3bca33423496ce78e" } } } ]

/-- The result of `GetVideoInfo` once the response is decoded: the check
`len(response) == 0 || response[0].Data.Video.SeekPreviewsURL == ""`, then
`strings.Split(..., "/storyboards/")[0] + "/chunked/index-dvr.m3u8"`. The
index 0 exists, `Split` with a separator gives at least one piece. -/
def streamingURL (response : TwitchGraphQLResponse) : GoString × Option GoError :=
  match response with
  | [] => ([], some (lit "seekPreviewsURL not found in response"))
  | first :: _ =>
    if first.Data.Video.SeekPreviewsURL.isEmpty then
      ([], some (lit "seekPreviewsURL not found in response"))
    else
      ((Split first.Data.Video.SeekPreviewsURL (lit "/storyboards/")).getD 0 []
        ++ lit "/chunked/index-dvr.m3u8", none)

/-- Go `func (c *Client) GetVideoInfo(videoID string) (string, error)`. The
second component is the list of the requests handed to `httpClient.Do`, in
order. -/
def GetVideoInfo (env : Env) (c : Client) (videoID : GoString) :
    (GoString × Option GoError) × List Request :=
  let request := requestPayload videoID
  match jsonMarshal request with
  | .error err => (([], some (lit "error marshaling request: " ++ err)), [])
  | .ok jsonData =>
    match NewRequest env (lit "POST") c.baseURL jsonData with
    | .error err => (([], some (lit "error creating request: " ++ err)), [])
    | .ok req =>
      let req := { req with Header := req.Header.Set (lit "Accept") (lit "application/json") }
      let req := { req with Header := req.Header.Set (lit "Client-Id") c.clientID }
      match env.Do req with
      | .error err => (([], some (lit "error making request: " ++ err)), [req])
      | .ok resp =>
        match resp.Body with
        | .error err => (([], some (lit "error reading response: " ++ err)), [req])
        | .ok body =>
          match jsonUnmarshal env body with
          | .error err => (([], some (lit "error parsing response: " ++ err)), [req])
          | .ok response => (streamingURL response, [req])

/-- The requests the HTTP transport receives during a call of
`GetVideoInfo`: those of every call of `httpClient.Do` it makes. -/
def transportRequests (env : Env) (c : Client) (videoID : GoString) : List TransportRequest :=
  (GetVideoInfo env c videoID).2.flatMap (fun req => (clientDo env req).2)

/-! ## `cmd/server/main.go`: the handler of `/extract` -/

namespace server

/-- Go `type Response struct` of the server: `URL` and `Error` are tagged
`omitempty`. -/
structure Response where
  Success : Bool
  URL : GoString := []
  Error : GoString := []
  deriving DecidableEq

/-- The state of an `http.ResponseWriter`: the header map, the status code
once it is written, and the values encoded to the body. -/
structure ResponseWriter where
  Header : Header := []
  Status : Option Nat := none
  Body : List Response := []
  deriving DecidableEq

def StatusOK : Nat := 200
def StatusBadRequest : Nat := 400
def StatusUnauthorized : Nat := 401
def StatusMethodNotAllowed : Nat := 405
def StatusInternalServerError : Nat := 500

/-- Go `w.WriteHeader(statusCode)`: only the first call counts. -/
def ResponseWriter.WriteHeader (w : ResponseWriter) (statusCode : Nat) : ResponseWriter :=
  match w.Status with
  | none => { w with Status := some statusCode }
  | some _ => w

/-- Go `json.NewEncoder(w).Encode(response)`: a write to the body, which
writes the status 200 first when none was written. -/
def ResponseWriter.Encode (w : ResponseWriter) (response : Response) : ResponseWriter :=
  let w := w.WriteHeader StatusOK
  { w with Body := w.Body ++ [response] }

/-- The status code the client of the server receives. -/
def ResponseWriter.statusCode (w : ResponseWriter) : Nat := w.Status.getD StatusOK

/-- Go `func respondWithError(w http.ResponseWriter, message string, statusCode int)`. -/
def respondWithError (w : ResponseWriter) (message : GoString) (statusCode : Nat) :
    ResponseWriter :=
  let response : Response := { Success := false, Error := message }
  let w := { w with Header := w.Header.Set (lit "Content-Type") (lit "application/json") }
  let w := w.WriteHeader statusCode
  w.Encode response

/-- The part of an incoming `*http.Request` the handler reads: the method
and the query parameters (`url.Values`). -/
structure Incoming where
  Method : GoString
  Query : List (GoString × List GoString)

/-- Go `url.Values.Get`: the first value of the key, or `""`. -/
def Incoming.Get (r : Incoming) (k : GoString) : GoString :=
  match r.Query.lookup k with
  | some (v :: _) => v
  | _ => []

/-- The function registered for `/extract` in `main`, for the configured
`secret` and the client `twitchClient`. -/
def extractHandler (env : Env) (secret : GoString) (twitchClient : Client) (r : Incoming) :
    ResponseWriter :=
  let w : ResponseWriter := {}
  let w := { w with Header := w.Header.Set (lit "Access-Control-Allow-Origin") (lit "*") }
  let w := { w with Header := w.Header.Set (lit "Access-Control-Allow-Methods") (lit "GET, OPTIONS") }
  let w := { w with Header := w.Header.Set (lit "Access-Control-Allow-Headers") (lit "Content-Type") }
  if r.Method = lit "OPTIONS" then w.WriteHeader StatusOK
  else if r.Method ≠ lit "GET" then respondWithError w (lit "Method not allowed") StatusMethodNotAllowed
  else
    let url := r.Get (lit "url")
    let providedSecret := r.Get (lit "secret")
    if providedSecret ≠ secret then respondWithError w (lit "Invalid secret") StatusUnauthorized
    else if url = [] then respondWithError w (lit "URL parameter is required") StatusBadRequest
    else
      match ExtractVideoID url with
      | (_, some err) =>
        respondWithError w (lit "Error extracting video ID: " ++ err) StatusBadRequest
      | (videoID, none) =>
        match (GetVideoInfo env twitchClient videoID).1 with
        | (_, some err) =>
          respondWithError w (lit "Error getting video info: " ++ err) StatusInternalServerError
        | (streamingURL, none) =>
          let response : Response := { Success := true, URL := streamingURL }
          let w := { w with Header := w.Header.Set (lit "Content-Type") (lit "application/json") }
          w.Encode response

end server

/-! ## The request body of section 6 of the specification -/

/-- The request body of section 6 of the specification, `idText` being the
text written in the three places of `<id>`, as the code points of a JSON
string: the members of every object in the order of the text. -/
def specRequestBody (idText : List Nat) : Json :=
  Json.arr [
    Json.obj [(key "operationName", jstr "VideoPlayer_VODSeekbarPreviewVideo"),
      (key "variables", Json.obj [(key "videoID", Json.str idText)]),
      (key "extensions", Json.obj [(key "persistedQuery", Json.obj [
        (key "version", Json.int 1),
        (key "sha256Hash",
          jstr "07e99e4d56c5a7c67117a154777b0baf85a5ffefa393b213f4bc712ccaf85dd6")])])],
    Json.obj [(key "operationName", jstr "ComscoreStreamingQuery"),
      (key "variables", Json.obj [(key "vodID", Json.str idText)]),
      (key "extensions", Json.obj [(key "persistedQuery", Json.obj [
        (key "version", Json.int 1),
        (key "sha256Hash",
          jstr "e1edae8122517d013405f237ffcc124515dc6ded82480a88daef69c83b53ac01")])])],
    Json.obj [(key "operationName", jstr "VodChannelLoginQuery"),
      (key "variables", Json.obj [(key "videoID", Json.str idText)]),
      (key "extensions", Json.obj [(key "persistedQuery", Json.obj [
        (key "version", Json.int 1),
        (key "sha256Hash",
          jstr "0c5feea4dad2565508828f16e53fe62614edf015159df4b3bca33423496ce78e")])])]]

/-- The Go string that a JSON string of the given code points stands for: the
concatenation of their UTF-8 encodings. -/
def textBytes (text : List Nat) : GoString := text.flatMap EncodeRune

/-- The request of section 4.1 of the specification, for a client and an
identifier: a POST to the configured endpoint, with the headers `Accept` and
`Client-Id` and the batched query as its body. -/
def specRequest (c : Client) (videoID : GoString) : Request :=
  { Method := lit "POST",
    URL := c.baseURL,
    Header := [(lit "Client-Id", [c.clientID]), (lit "Accept", [lit "application/json"])],
    Body := marshalRequest (requestPayload videoID) }

/-! ## Well-formed values -/

/-- The strings of an operation are valid UTF-8 and its version is a Go `int`. -/
def wellFormedOperation (o : GraphQLOperation) : Prop :=
  ValidString o.OperationName = true ∧ ValidString o.Variables.VideoID = true ∧
  ValidString o.Variables.VodID = true ∧
  ValidString o.Extensions.PersistedQuery.Sha256Hash = true ∧
  inInt o.Extensions.PersistedQuery.Version

instance (o : GraphQLOperation) : Decidable (wellFormedOperation o) := by
  unfold wellFormedOperation; infer_instance

/-! ## An environment to evaluate the definitions in -/

/-- A sample environment: every URL parses, the endpoint answers every
request with the status code `status` and the body `text`, and `text` is read
as `doc` (a JSON document, or the syntax error of a text that is not JSON). -/
def sampleEnv (status : Nat) (text : GoString) (doc : Except GoError Json) : Env where
  urlParse := fun _ => none
  RoundTrip := fun _ => .ok { StatusCode := status, Body := .ok text }
  resolve := fun _ loc => .ok loc
  trusted := fun _ _ => true
  referer := fun last _ => last
  urlError := fun _ err => err
  jsonParse := fun body => if body = text then doc else .error (lit "unexpected end of JSON input")

/-- A sample environment with one redirect: the endpoint
`https://gql.twitch.tv/gql` answers with the status code `status` and the
`Location` `https://gql.twitch.tv/v2`, every other URL answers 200 with the
body `[]`. -/
def redirectEnv (status : Nat) : Env where
  urlParse := fun _ => none
  RoundTrip := fun req =>
    if req.URL = lit "https://gql.twitch.tv/gql" then
      .ok { StatusCode := status, Body := .ok [],
            Header := [(lit "Location", [lit "https://gql.twitch.tv/v2"])] }
    else .ok { StatusCode := 200, Body := .ok (lit "[]") }
  resolve := fun _ loc => .ok loc
  trusted := fun _ _ => true
  referer := fun last _ => last
  urlError := fun _ err => err
  jsonParse := fun body =>
    if body = lit "[]" then .ok (Json.arr []) else .error (lit "unexpected end of JSON input")

/-- The document of a response with one item, of the given `seekPreviewsURL`. -/
def sampleDoc (seekPreviewsURL : GoString) : Json :=
  marshalResponse [{ Data := { Video := { SeekPreviewsURL := seekPreviewsURL } } }]

/-! ## Lemmas on the pattern -/

theorem videoLiteral_eq :
    videoLiteral = [0x74, 0x77, 0x69, 0x74, 0x63, 0x68, 0x2e, 0x74, 0x76, 0x2f,
      0x76, 0x69, 0x64, 0x65, 0x6f, 0x73, 0x2f] := by decide

theorem lit_at : lit "@" = [0x40] := by decide

theorem HasPrefix_iff (s pre : GoString) : HasPrefix s pre = true ↔ pre <+: s := by
  unfold HasPrefix
  simp only [Bool.and_eq_true, decide_eq_true_eq]
  constructor
  · rintro ⟨_, h⟩
    rw [← h]
    exact List.take_prefix _ _
  · intro h
    exact ⟨h.length_le, (List.prefix_iff_eq_take.mp h).symm⟩

theorem takeWhile_digits (ds rest : GoString) (hdig : ∀ b ∈ ds, isDigit b = true)
    (hmax : ∀ b, rest.head? = some b → isDigit b = false) :
    (ds ++ rest).takeWhile isDigit = ds := by
  induction ds with
  | nil =>
    cases rest with
    | nil => rfl
    | cons b r => simp [List.takeWhile, hmax b rfl]
  | cons d ds ih =>
    have hd : isDigit d = true := hdig d (List.mem_cons_self _ _)
    rw [List.cons_append, List.takeWhile_cons, hd, if_pos rfl,
      ih (fun b hb => hdig b (List.mem_cons_of_mem _ hb))]

/-- A match at the start of `s` exhibits the literal followed by a digit. -/
theorem matchHere_some (s : GoString) (m : List GoString) (h : matchHere s = some m) :
    ∃ d rest, isDigit d = true ∧ s = videoLiteral ++ d :: rest := by
  unfold matchHere at h
  split at h
  · rename_i hp
    obtain ⟨t, rfl⟩ := (HasPrefix_iff _ _).mp hp
    simp only [List.drop_left] at h
    cases t with
    | nil => simp at h
    | cons d r =>
      by_cases hd : isDigit d = true
      · exact ⟨d, r, hd, rfl⟩
      · simp [List.takeWhile, hd] at h
  · cases h

/-- The literal followed by a maximal non-empty run of digits is matched, and
group 1 is that run. -/
theorem matchHere_run (ds rest : GoString) (hne : ds ≠ [])
    (hdig : ∀ b ∈ ds, isDigit b = true)
    (hmax : ∀ b, rest.head? = some b → isDigit b = false) :
    matchHere (videoLiteral ++ ds ++ rest) = some [videoLiteral ++ ds, ds] := by
  unfold matchHere
  have hp : HasPrefix (videoLiteral ++ ds ++ rest) videoLiteral = true := by
    rw [HasPrefix_iff, List.append_assoc]
    exact List.prefix_append _ _
  rw [if_pos hp]
  simp only [List.append_assoc, List.drop_left]
  rw [takeWhile_digits ds rest hdig hmax]
  cases ds with
  | nil => exact absurd rfl hne
  | cons d ds => simp

theorem FindStringSubmatch_of_matchHere (s : GoString) (m : List GoString)
    (h : matchHere s = some m) : FindStringSubmatch s = m := by
  cases s with
  | nil => simp [FindStringSubmatch, h]
  | cons b s => simp [FindStringSubmatch, h]

theorem FindStringSubmatch_cons_none (b : UInt8) (s : GoString)
    (h : matchHere (b :: s) = none) :
    FindStringSubmatch (b :: s) = FindStringSubmatch s := by
  simp [FindStringSubmatch, h]

/-- The submatches found when the leftmost occurrence of the literal followed
by a digit starts after `pre`. -/
theorem FindStringSubmatch_leftmost (pre ds rest : GoString) (hne : ds ≠ [])
    (hdig : ∀ b ∈ ds, isDigit b = true)
    (hmax : ∀ b, rest.head? = some b → isDigit b = false)
    (hleft : ∀ pre1 d rest1, isDigit d = true →
      pre ++ videoLiteral ++ ds ++ rest = pre1 ++ videoLiteral ++ d :: rest1 →
      pre.length ≤ pre1.length) :
    FindStringSubmatch (pre ++ videoLiteral ++ ds ++ rest) = [videoLiteral ++ ds, ds] := by
  induction pre with
  | nil =>
    exact FindStringSubmatch_of_matchHere _ _ (matchHere_run ds rest hne hdig hmax)
  | cons b pre ih =>
    have hnone : matchHere (b :: pre ++ videoLiteral ++ ds ++ rest) = none := by
      cases hm : matchHere (b :: pre ++ videoLiteral ++ ds ++ rest) with
      | none => rfl
      | some m =>
        obtain ⟨d, r, hd, hs⟩ := matchHere_some _ _ hm
        have := hleft [] d r hd (by simpa using hs)
        simp at this
    have hstep : FindStringSubmatch (b :: pre ++ videoLiteral ++ ds ++ rest)
        = FindStringSubmatch (pre ++ videoLiteral ++ ds ++ rest) := by
      simpa using FindStringSubmatch_cons_none b (pre ++ videoLiteral ++ ds ++ rest)
        (by simpa using hnone)
    rw [hstep]
    apply ih
    intro pre1 d rest1 hd hs
    have := hleft (b :: pre1) d rest1 hd (by
      simp only [List.cons_append]
      rw [hs])
    simpa using this

/-- Without an occurrence of the literal followed by a digit nothing is found. -/
theorem FindStringSubmatch_none (s : GoString)
    (h : ¬ ∃ pre d rest, isDigit d = true ∧ s = pre ++ videoLiteral ++ d :: rest) :
    FindStringSubmatch s = [] := by
  induction s with
  | nil =>
    cases hm : matchHere [] with
    | none => simp [FindStringSubmatch, hm]
    | some m =>
      obtain ⟨d, r, hd, hs⟩ := matchHere_some _ _ hm
      exact absurd ⟨[], d, r, hd, by simp at hs⟩ h
  | cons b s ih =>
    cases hm : matchHere (b :: s) with
    | some m =>
      obtain ⟨d, r, hd, hs⟩ := matchHere_some _ _ hm
      exact absurd ⟨[], d, r, hd, by simpa using hs⟩ h
    | none =>
      rw [FindStringSubmatch_cons_none b s hm]
      apply ih
      rintro ⟨pre, d, r, hd, hs⟩
      exact h ⟨b :: pre, d, r, hd, by
        simp only [List.cons_append]
        rw [hs]⟩

/-! ## `ExtractVideoID` -/

theorem TrimPrefix_at_cons (t : GoString) : TrimPrefix (0x40 :: t) (lit "@") = t := by
  rw [lit_at]
  simp [TrimPrefix, HasPrefix]

theorem TrimPrefix_at_other (s : GoString) (h : s.head? ≠ some 0x40) :
    TrimPrefix s (lit "@") = s := by
  rw [lit_at]
  unfold TrimPrefix
  rw [if_neg]
  rw [HasPrefix_iff]
  rintro ⟨t, rfl⟩
  exact h rfl

theorem ExtractVideoID_of_find (url a b : GoString)
    (h : FindStringSubmatch (TrimPrefix url (lit "@")) = [a, b]) :
    ExtractVideoID url = (b, none) := by
  simp [ExtractVideoID, h]

theorem ExtractVideoID_of_find_nil (url : GoString)
    (h : FindStringSubmatch (TrimPrefix url (lit "@")) = []) :
    ExtractVideoID url = ([], some errInvalidURLFormat) := by
  simp [ExtractVideoID, h]

/-- A position where the literal is followed by a digit is a match. -/
theorem matchHere_digit (d : UInt8) (rest : GoString) (hd : isDigit d = true) :
    matchHere (videoLiteral ++ d :: rest) ≠ none := by
  unfold matchHere
  have hp : HasPrefix (videoLiteral ++ d :: rest) videoLiteral = true := by
    rw [HasPrefix_iff]
    exact List.prefix_append _ _
  rw [if_pos hp]
  simp [List.takeWhile_cons, hd]

/-- The occurrence after `n` bytes is the leftmost one when no match starts
at an offset below `n`. -/
theorem leftmost_of_no_match (s : GoString) (n : Nat)
    (h : ∀ j, j < n → matchHere (s.drop j) = none) :
    ∀ pre1 d rest1, isDigit d = true → s = pre1 ++ videoLiteral ++ d :: rest1 →
      n ≤ pre1.length := by
  intro pre1 d rest1 hd hs
  by_contra hlt
  have hj := h pre1.length (by omega)
  rw [hs, List.append_assoc, List.drop_left] at hj
  exact matchHere_digit d rest1 hd hj

/-! ## `strings.Index` and `strings.Split` -/

theorem Index_of_HasPrefix (s sep : GoString) (h : HasPrefix s sep = true) :
    Index s sep = some 0 := by
  cases s with
  | nil => simp [Index, h]
  | cons b s => simp [Index, h]

theorem Index_cons_of_not_HasPrefix (b : UInt8) (s sep : GoString)
    (h : HasPrefix (b :: s) sep = false) :
    Index (b :: s) sep = (Index s sep).map (fun i => i + 1) := by
  simp [Index, h]

/-- The offset of the leftmost occurrence of the separator. -/
theorem Index_leftmost (p sep r : GoString)
    (hleft : ∀ p1 r1, p ++ sep ++ r = p1 ++ sep ++ r1 → p.length ≤ p1.length) :
    Index (p ++ sep ++ r) sep = some p.length := by
  induction p with
  | nil =>
    apply Index_of_HasPrefix
    rw [HasPrefix_iff]
    simp
  | cons b p ih =>
    have hnp : HasPrefix (b :: p ++ sep ++ r) sep = false := by
      cases hp : HasPrefix (b :: p ++ sep ++ r) sep with
      | false => rfl
      | true =>
        obtain ⟨t, ht⟩ := (HasPrefix_iff _ _).mp hp
        have := hleft [] t (by simpa using ht.symm)
        simp at this
    have hcons : b :: p ++ sep ++ r = b :: (p ++ sep ++ r) := by simp
    rw [hcons] at hnp ⊢
    rw [Index_cons_of_not_HasPrefix b _ sep hnp, ih]
    · rfl
    · intro p1 r1 hs
      have := hleft (b :: p1) r1 (by
        simp only [List.cons_append]
        rw [hs])
      simpa using this

/-- Without an occurrence of the separator `Index` is `-1`. -/
theorem Index_absent (s sep : GoString) (h : ¬ ∃ p r, s = p ++ sep ++ r) :
    Index s sep = none := by
  have hnp : ∀ t : GoString, (¬ ∃ p r, t = p ++ sep ++ r) → HasPrefix t sep = false := by
    intro t ht
    cases hp : HasPrefix t sep with
    | false => rfl
    | true =>
      obtain ⟨r, hr⟩ := (HasPrefix_iff _ _).mp hp
      exact absurd ⟨[], r, by simpa using hr.symm⟩ ht
  induction s with
  | nil => simp [Index, hnp [] h]
  | cons b s ih =>
    rw [Index_cons_of_not_HasPrefix b s sep (hnp _ h), ih]
    · rfl
    · rintro ⟨p, r, hs⟩
      exact h ⟨b :: p, r, by
        simp only [List.cons_append]
        rw [hs]⟩

theorem Index_some_length (s sep : GoString) (m : Nat) (h : Index s sep = some m) :
    m + sep.length ≤ s.length := by
  induction s generalizing m with
  | nil =>
    unfold Index at h
    split at h
    · rename_i hp
      have := ((HasPrefix_iff _ _).mp hp).length_le
      cases h
      simpa using this
    · cases h
  | cons b s ih =>
    unfold Index at h
    split at h
    · rename_i hp
      have := ((HasPrefix_iff _ _).mp hp).length_le
      cases h
      simpa using this
    · cases hi : Index s sep with
      | none => simp [hi] at h
      | some i =>
        simp [hi] at h
        have := ih i hi
        subst h
        simp
        omega

/-- The first piece of `Split` when the separator occurs, first at `m`. -/
theorem Split_first_of_Index (s sep : GoString) (m : Nat) (hsep : sep ≠ [])
    (h : Index s sep = some m) : (Split s sep).getD 0 [] = s.take m := by
  have hlen := Index_some_length s sep m h
  have hsl : 0 < sep.length := List.length_pos.mpr hsep
  obtain ⟨n, hn⟩ : ∃ n, s.length = n + 1 := ⟨s.length - 1, by omega⟩
  have hcount : Count s sep = countLoop sep n (s.drop (m + sep.length)) + 1 := by
    unfold Count
    rw [if_neg (by simpa using hsep), hn]
    simp [countLoop, h]
  unfold Split
  rw [if_neg (by simpa using hsep), hcount]
  simp [splitLoop, h]

theorem countLoop_absent (sep s : GoString) (fuel : Nat) (h : Index s sep = none) :
    countLoop sep fuel s = 0 := by
  cases fuel with
  | zero => rfl
  | succ n => simp [countLoop, h]

/-- The only piece of `Split` when the separator does not occur. -/
theorem Split_first_absent (s sep : GoString) (hsep : sep ≠ [])
    (h : Index s sep = none) : (Split s sep).getD 0 [] = s := by
  unfold Split Count
  rw [if_neg (by simpa using hsep), if_neg (by simpa using hsep), countLoop_absent sep s _ h]
  simp [splitLoop]

theorem storyboards_ne_nil : lit "/storyboards/" ≠ [] := by decide

/-- The first piece of the split at `/storyboards/`: what is before the
leftmost occurrence, or the whole string when there is none. -/
theorem Split_storyboards (s p : GoString)
    (h : (∃ r, s = p ++ lit "/storyboards/" ++ r ∧
          ∀ p1 r1, s = p1 ++ lit "/storyboards/" ++ r1 → p.length ≤ p1.length) ∨
      (p = s ∧ ¬ ∃ p1 r1, s = p1 ++ lit "/storyboards/" ++ r1)) :
    (Split s (lit "/storyboards/")).getD 0 [] = p := by
  rcases h with ⟨r, hs, hleft⟩ | ⟨hp, habs⟩
  · subst hs
    rw [Split_first_of_Index _ _ p.length storyboards_ne_nil (Index_leftmost p _ r hleft)]
    simp
  · subst hp
    exact Split_first_absent _ _ storyboards_ne_nil (Index_absent _ _ habs)

/-- The occurrence after `n` bytes is the leftmost one when the separator is
not a prefix at any offset below `n`. -/
theorem leftmost_of_no_prefix (s sep : GoString) (n : Nat)
    (h : ∀ j, j < n → HasPrefix (s.drop j) sep = false) :
    ∀ p1 r1, s = p1 ++ sep ++ r1 → n ≤ p1.length := by
  intro p1 r1 hs
  by_contra hlt
  have hj := h p1.length (by omega)
  rw [hs, List.append_assoc, List.drop_left] at hj
  have : HasPrefix (sep ++ r1) sep = true := by
    rw [HasPrefix_iff]
    exact List.prefix_append _ _
  simp [this] at hj

/-- The separator does not occur when it is not a prefix at any offset. -/
theorem absent_of_no_prefix (s sep : GoString)
    (h : ∀ j, j < s.length + 1 → HasPrefix (s.drop j) sep = false) :
    ¬ ∃ p1 r1, s = p1 ++ sep ++ r1 := by
  rintro ⟨p1, r1, hs⟩
  have := leftmost_of_no_prefix s sep (s.length + 1) h p1 r1 hs
  have hl : p1.length ≤ s.length := by
    rw [hs]
    simp
  omega

/-! ## `GetVideoInfo` -/

theorem NewRequest_POST (env : Env) (url : GoString) (body : Json) :
    NewRequest env (lit "POST") url body =
      match env.urlParse url with
      | some err => .error err
      | none => .ok { Method := lit "POST", URL := url, Header := [], Body := body } := by
  have h1 : (lit "POST").isEmpty = false := by decide
  have h2 : (lit "POST").all isTokenByte = true := by decide
  simp [NewRequest, h1, h2]

theorem header_after_Set (clientID : GoString) :
    (Header.Set (Header.Set [] (lit "Accept") (lit "application/json"))
      (lit "Client-Id") clientID)
      = [(lit "Client-Id", [clientID]), (lit "Accept", [lit "application/json"])] := by
  have h1 : CanonicalHeaderKey (lit "Accept") = lit "Accept" := by decide
  have h2 : CanonicalHeaderKey (lit "Client-Id") = lit "Client-Id" := by decide
  have h3 : (lit "Accept" != lit "Client-Id") = true := by decide
  simp [Header.Set, h1, h2, h3]

/-- When the URL of the client does not parse, no request is made. -/
theorem GetVideoInfo_bad_url (env : Env) (c : Client) (videoID err : GoString)
    (hurl : env.urlParse c.baseURL = some err) :
    GetVideoInfo env c videoID = (([], some (lit "error creating request: " ++ err)), []) := by
  simp [GetVideoInfo, jsonMarshal, NewRequest_POST, hurl]

/-- When the URL of the client parses, the request of the specification is
handed to the transport, once, and the result follows the exchange. -/
theorem GetVideoInfo_exchange (env : Env) (c : Client) (videoID : GoString)
    (hurl : env.urlParse c.baseURL = none) :
    GetVideoInfo env c videoID =
      (match env.Do (specRequest c videoID) with
        | .error err => ([], some (lit "error making request: " ++ err))
        | .ok resp =>
          match resp.Body with
          | .error err => ([], some (lit "error reading response: " ++ err))
          | .ok body =>
            match jsonUnmarshal env body with
            | .error err => ([], some (lit "error parsing response: " ++ err))
            | .ok response => streamingURL response,
       [specRequest c videoID]) := by
  simp only [GetVideoInfo, jsonMarshal, NewRequest_POST, hurl, header_after_Set]
  unfold specRequest
  generalize env.Do _ = d
  cases d with
  | error e => rfl
  | ok resp =>
    obtain ⟨sc, b, hd⟩ := resp
    cases b with
    | error e => rfl
    | ok body =>
      simp only []
      cases jsonUnmarshal env body with
      | error e => rfl
      | ok response => rfl

/-- The result once the exchange has given a decoded response. -/
theorem GetVideoInfo_decoded (env : Env) (c : Client) (videoID : GoString)
    (resp : HTTPResponse) (body : GoString) (response : TwitchGraphQLResponse)
    (hurl : env.urlParse c.baseURL = none)
    (hdo : env.Do (specRequest c videoID) = .ok resp)
    (hbody : resp.Body = .ok body)
    (hdec : jsonUnmarshal env body = .ok response) :
    (GetVideoInfo env c videoID).1 = streamingURL response := by
  rw [GetVideoInfo_exchange env c videoID hurl]
  simp [hdo, hbody, hdec]

/-! ## UTF-8: encoding the runes of a valid string gives the string back -/

theorem UInt8_ofNat_toNat (b : UInt8) : UInt8.ofNat b.toNat = b :=
  UInt8.toNat.inj (UInt8.toNat_ofNat_of_lt b.toNat_lt_size)

theorem EncodeRune_one (n0 : Nat) (h0 : n0 < 0x80) : EncodeRune n0 = [UInt8.ofNat n0] := by
  unfold EncodeRune
  rw [if_pos (by omega)]

theorem EncodeRune_two (n0 n1 : Nat) (h0 : 0xC2 ≤ n0) (h0' : n0 < 0xE0)
    (h1 : 0x80 ≤ n1) (h1' : n1 ≤ 0xBF) :
    EncodeRune (n0 % 32 * 64 + n1 % 64) = [UInt8.ofNat n0, UInt8.ofNat n1] := by
  unfold EncodeRune
  rw [if_neg (by omega), if_pos (by omega)]
  have e0 : 0xC0 + (n0 % 32 * 64 + n1 % 64) / 64 = n0 := by omega
  have e1 : 0x80 + (n0 % 32 * 64 + n1 % 64) % 64 = n1 := by omega
  rw [e0, e1]

theorem EncodeRune_three (n0 n1 n2 : Nat) (h0 : 0xE0 ≤ n0) (h0' : n0 < 0xF0)
    (h1 : 0x80 ≤ n1) (h1' : n1 ≤ 0xBF) (h2 : 0x80 ≤ n2) (h2' : n2 ≤ 0xBF)
    (hlo : n0 = 0xE0 → 0xA0 ≤ n1) (hhi : n0 = 0xED → n1 ≤ 0x9F) :
    EncodeRune (n0 % 16 * 4096 + n1 % 64 * 64 + n2 % 64)
      = [UInt8.ofNat n0, UInt8.ofNat n1, UInt8.ofNat n2] := by
  unfold EncodeRune
  rw [if_neg (by omega), if_neg (by omega), if_neg (by omega), if_pos (by omega)]
  have e0 : 0xE0 + (n0 % 16 * 4096 + n1 % 64 * 64 + n2 % 64) / 4096 = n0 := by omega
  have e1 : 0x80 + (n0 % 16 * 4096 + n1 % 64 * 64 + n2 % 64) / 64 % 64 = n1 := by omega
  have e2 : 0x80 + (n0 % 16 * 4096 + n1 % 64 * 64 + n2 % 64) % 64 = n2 := by omega
  rw [e0, e1, e2]

theorem EncodeRune_four (n0 n1 n2 n3 : Nat) (h0 : 0xF0 ≤ n0) (h0' : n0 < 0xF5)
    (h1 : 0x80 ≤ n1) (h1' : n1 ≤ 0xBF) (h2 : 0x80 ≤ n2) (h2' : n2 ≤ 0xBF)
    (h3 : 0x80 ≤ n3) (h3' : n3 ≤ 0xBF)
    (hlo : n0 = 0xF0 → 0x90 ≤ n1) (hhi : n0 = 0xF4 → n1 ≤ 0x8F) :
    EncodeRune (n0 % 8 * 262144 + n1 % 64 * 4096 + n2 % 64 * 64 + n3 % 64)
      = [UInt8.ofNat n0, UInt8.ofNat n1, UInt8.ofNat n2, UInt8.ofNat n3] := by
  unfold EncodeRune
  rw [if_neg (by omega), if_neg (by omega), if_neg (by omega), if_neg (by omega)]
  have e0 : 0xF0 + (n0 % 8 * 262144 + n1 % 64 * 4096 + n2 % 64 * 64 + n3 % 64) / 262144
      = n0 := by omega
  have e1 : 0x80 + (n0 % 8 * 262144 + n1 % 64 * 4096 + n2 % 64 * 64 + n3 % 64) / 4096 % 64
      = n1 := by omega
  have e2 : 0x80 + (n0 % 8 * 262144 + n1 % 64 * 4096 + n2 % 64 * 64 + n3 % 64) / 64 % 64
      = n2 := by omega
  have e3 : 0x80 + (n0 % 8 * 262144 + n1 % 64 * 4096 + n2 % 64 * 64 + n3 % 64) % 64
      = n3 := by omega
  rw [e0, e1, e2, e3]

theorem isCont_iff (b : UInt8) : isCont b = true ↔ 0x80 ≤ b.toNat ∧ b.toNat ≤ 0xBF := by
  simp [isCont]

theorem ValidString_cons (b0 : UInt8) (rest : GoString) :
    ValidString (b0 :: rest) =
      (if b0.toNat < 0x80 then ValidString rest
      else if b0.toNat < 0xC2 then false
      else if b0.toNat < 0xE0 then
        match rest with
        | b1 :: rest1 => isCont b1 && ValidString rest1
        | [] => false
      else if b0.toNat < 0xF0 then
        match rest with
        | b1 :: b2 :: rest2 =>
          isCont b1 && isCont b2 && !(b0.toNat == 0xE0 && decide (b1.toNat < 0xA0))
            && !(b0.toNat == 0xED && decide (0x9F < b1.toNat)) && ValidString rest2
        | _ => false
      else if b0.toNat < 0xF5 then
        match rest with
        | b1 :: b2 :: b3 :: rest3 =>
          isCont b1 && isCont b2 && isCont b3 && !(b0.toNat == 0xF0 && decide (b1.toNat < 0x90))
            && !(b0.toNat == 0xF4 && decide (0x8F < b1.toNat)) && ValidString rest3
        | _ => false
      else false) := by
  cases rest with
  | nil => rfl
  | cons b1 rest1 =>
    cases rest1 with
    | nil => rfl
    | cons b2 rest2 =>
      cases rest2 with
      | nil => rfl
      | cons b3 rest3 => rfl

/-- One step of the decoding loop on a valid string that is not empty: the
first rune has a width `n ≥ 1`, its encoding is the first `n` bytes, and what
follows them is valid. -/
theorem valid_step (s : GoString) (hne : s ≠ []) (hv : ValidString s = true) :
    0 < (DecodeRune s).2 ∧ EncodeRune (DecodeRune s).1 = s.take (DecodeRune s).2 ∧
      ValidString (s.drop (DecodeRune s).2) = true := by
  cases s with
  | nil => exact absurd rfl hne
  | cons b0 rest =>
    rw [ValidString_cons] at hv
    by_cases c1 : b0.toNat < 0x80
    · rw [if_pos c1] at hv
      have hd : DecodeRune (b0 :: rest) = (b0.toNat, 1) := by
        simp [DecodeRune, c1]
      rw [hd]
      refine ⟨Nat.succ_pos _, ?_, by simpa using hv⟩
      simp [EncodeRune_one _ c1, UInt8_ofNat_toNat]
    rw [if_neg c1] at hv
    by_cases c2 : b0.toNat < 0xC2
    · rw [if_pos c2] at hv
      cases hv
    rw [if_neg c2] at hv
    by_cases c3 : b0.toNat < 0xE0
    · rw [if_pos c3] at hv
      cases rest with
      | nil => cases hv
      | cons b1 rest1 =>
        simp only [Bool.and_eq_true, isCont_iff] at hv
        obtain ⟨⟨h1, h1'⟩, hv⟩ := hv
        have hd : DecodeRune (b0 :: b1 :: rest1)
            = (b0.toNat % 32 * 64 + b1.toNat % 64, 2) := by
          simp [DecodeRune, c1, c2, c3, h1, h1']
        rw [hd]
        refine ⟨Nat.succ_pos _, ?_, by simpa using hv⟩
        simp [EncodeRune_two _ _ (by omega) c3 h1 h1', UInt8_ofNat_toNat]
    rw [if_neg c3] at hv
    by_cases c4 : b0.toNat < 0xF0
    · rw [if_pos c4] at hv
      match rest, hv with
      | b1 :: b2 :: rest2, hv =>
        simp only [Bool.and_eq_true, isCont_iff, Bool.not_eq_true', Bool.and_eq_false_iff,
          beq_eq_false_iff_ne, decide_eq_false_iff_not, ne_eq] at hv
        obtain ⟨⟨⟨⟨⟨h1, h1'⟩, ⟨h2, h2'⟩⟩, hlo⟩, hhi⟩, hv⟩ := hv
        have hlo' : b0.toNat = 0xE0 → 0xA0 ≤ b1.toNat := by
          intro h; rcases hlo with h' | h'
          · exact absurd h h'
          · omega
        have hhi' : b0.toNat = 0xED → b1.toNat ≤ 0x9F := by
          intro h; rcases hhi with h' | h'
          · exact absurd h h'
          · omega
        have hd : DecodeRune (b0 :: b1 :: b2 :: rest2)
            = (b0.toNat % 16 * 4096 + b1.toNat % 64 * 64 + b2.toNat % 64, 3) := by
          simp only [DecodeRune, List.map_cons, if_neg c1, if_neg c2, if_neg c3, if_pos c4]
          rw [if_pos]
          refine ⟨?_, ?_, h2, h2'⟩
          · split <;> omega
          · split <;> omega
        rw [hd]
        refine ⟨Nat.succ_pos _, ?_, by simpa using hv⟩
        simp [EncodeRune_three _ _ _ (by omega) c4 h1 h1' h2 h2' hlo' hhi', UInt8_ofNat_toNat]
    rw [if_neg c4] at hv
    by_cases c5 : b0.toNat < 0xF5
    · rw [if_pos c5] at hv
      match rest, hv with
      | b1 :: b2 :: b3 :: rest3, hv =>
        simp only [Bool.and_eq_true, isCont_iff, Bool.not_eq_true', Bool.and_eq_false_iff,
          beq_eq_false_iff_ne, decide_eq_false_iff_not, ne_eq] at hv
        obtain ⟨⟨⟨⟨⟨⟨h1, h1'⟩, ⟨h2, h2'⟩⟩, ⟨h3, h3'⟩⟩, hlo⟩, hhi⟩, hv⟩ := hv
        have hlo' : b0.toNat = 0xF0 → 0x90 ≤ b1.toNat := by
          intro h; rcases hlo with h' | h'
          · exact absurd h h'
          · omega
        have hhi' : b0.toNat = 0xF4 → b1.toNat ≤ 0x8F := by
          intro h; rcases hhi with h' | h'
          · exact absurd h h'
          · omega
        have hd : DecodeRune (b0 :: b1 :: b2 :: b3 :: rest3)
            = (b0.toNat % 8 * 262144 + b1.toNat % 64 * 4096 + b2.toNat % 64 * 64
                + b3.toNat % 64, 4) := by
          simp only [DecodeRune, List.map_cons, if_neg c1, if_neg c2, if_neg c3, if_neg c4,
            if_pos c5]
          rw [if_pos]
          refine ⟨?_, ?_, h2, h2', h3, h3'⟩
          · split <;> omega
          · split <;> omega
        rw [hd]
        refine ⟨Nat.succ_pos _, ?_, by simpa using hv⟩
        simp [EncodeRune_four _ _ _ _ (by omega) c5 h1 h1' h2 h2' h3 h3' hlo' hhi',
          UInt8_ofNat_toNat]
    rw [if_neg c5] at hv
    cases hv

theorem decodeRunes_valid (fuel : Nat) (s : GoString) (hlen : s.length ≤ fuel)
    (hv : ValidString s = true) :
    ((decodeRunes fuel s).map Prod.fst).flatMap EncodeRune = s := by
  induction fuel generalizing s with
  | zero =>
    have : s = [] := List.length_eq_zero.mp (by omega)
    subst this
    rfl
  | succ fuel ih =>
    cases hs : s with
    | nil => rfl
    | cons b t =>
      have hne : s ≠ [] := by rw [hs]; simp
      obtain ⟨hpos, henc, hval⟩ := valid_step s hne hv
      rw [← hs]
      have hunf : decodeRunes (fuel + 1) s
          = ((DecodeRune s).1, s.take (DecodeRune s).2)
              :: decodeRunes fuel (s.drop (DecodeRune s).2) := by
        rw [decodeRunes]
        have : s.isEmpty = false := by rw [hs]; rfl
        simp [this]
      rw [hunf]
      simp only [List.map_cons, List.flatMap_cons]
      rw [henc, ih (s.drop (DecodeRune s).2) (by simp; omega) hval]
      exact List.take_append_drop _ _

/-- A valid string is read back from its JSON string. -/
theorem unmarshalString_marshalString (cur s : GoString) (hv : ValidString s = true) :
    unmarshalString cur (marshalString s) = .ok s := by
  simp [unmarshalString, marshalString, stringRunes, decodeRunes_valid s.length s (le_refl _) hv]

/-! ## `json.Unmarshal` after `json.Marshal` on the types of `types.go` -/

theorem mapM_map_ok {α : Type} (f : Json → Except UnmarshalTypeError α) (g : α → Json)
    (r : List α) (h : ∀ x ∈ r, f (g x) = .ok x) : (r.map g).mapM f = .ok r := by
  induction r with
  | nil => rfl
  | cons x r ih =>
    have hx := h x (List.mem_cons_self _ _)
    have hr := ih (fun y hy => h y (List.mem_cons_of_mem _ hy))
    simp only [List.map_cons, List.mapM_cons, hx, hr]
    rfl

theorem GraphQLVariables_roundtrip (v : GraphQLVariables)
    (h1 : ValidString v.VideoID = true) (h2 : ValidString v.VodID = true) :
    GraphQLVariables.fromJson {} v.toJson = .ok v := by
  have k0 : lookupField [key "videoID", key "vodID"] (key "videoID") = some 0 := by decide
  have k1 : lookupField [key "videoID", key "vodID"] (key "vodID") = some 1 := by decide
  obtain ⟨a, b⟩ := v
  cases a with
  | nil =>
    cases b with
    | nil => rfl
    | cons b0 b =>
      simp only [GraphQLVariables.fromJson, GraphQLVariables.toJson, unmarshalStruct,
        List.isEmpty, if_true, Bool.false_eq_true, if_false, List.nil_append, List.foldlM,
        GraphQLVariables.setField, k1, unmarshalString_marshalString _ _ h2]
      rfl
  | cons a0 a =>
    cases b with
    | nil =>
      simp only [GraphQLVariables.fromJson, GraphQLVariables.toJson, unmarshalStruct,
        List.isEmpty, if_true, Bool.false_eq_true, if_false, List.append_nil, List.foldlM,
        GraphQLVariables.setField, k0, unmarshalString_marshalString _ _ h1]
      rfl
    | cons b0 b =>
      simp only [GraphQLVariables.fromJson, GraphQLVariables.toJson, unmarshalStruct,
        List.isEmpty, Bool.false_eq_true, if_false, List.cons_append, List.nil_append,
        List.foldlM, GraphQLVariables.setField, k0, k1, unmarshalString_marshalString _ _ h1]
      simp only [Except.map, bind, Except.bind, GraphQLVariables.setField, k1,
        unmarshalString_marshalString _ _ h2]
      rfl

theorem PersistedQuery_roundtrip (p : PersistedQuery) (h1 : inInt p.Version)
    (h2 : ValidString p.Sha256Hash = true) :
    PersistedQuery.fromJson {} p.toJson = .ok p := by
  have k0 : lookupField [key "version", key "sha256Hash"] (key "version") = some 0 := by decide
  have k1 : lookupField [key "version", key "sha256Hash"] (key "sha256Hash") = some 1 := by
    decide
  obtain ⟨a, b⟩ := p
  simp only [PersistedQuery.fromJson, PersistedQuery.toJson, unmarshalStruct, List.foldlM,
    PersistedQuery.setField, k0, unmarshalInt, if_pos h1]
  simp only [Except.map, bind, Except.bind, PersistedQuery.setField, k1,
    unmarshalString_marshalString _ _ h2]
  rfl

theorem GraphQLExtensions_roundtrip (e : GraphQLExtensions)
    (h1 : inInt e.PersistedQuery.Version)
    (h2 : ValidString e.PersistedQuery.Sha256Hash = true) :
    GraphQLExtensions.fromJson {} e.toJson = .ok e := by
  have k0 : lookupField [key "persistedQuery"] (key "persistedQuery") = some 0 := by decide
  obtain ⟨p⟩ := e
  have hp := PersistedQuery_roundtrip p h1 h2
  simp only [GraphQLExtensions.fromJson, GraphQLExtensions.toJson, unmarshalStruct,
    List.foldlM, GraphQLExtensions.setField, k0]
  have hp' : PersistedQuery.fromJson ({} : GraphQLExtensions).PersistedQuery p.toJson
      = .ok p := hp
  simp only [hp', Except.map, bind, Except.bind]
  rfl

theorem GraphQLOperation_roundtrip (o : GraphQLOperation) (h : wellFormedOperation o) :
    GraphQLOperation.fromJson {} o.toJson = .ok o := by
  have k0 : lookupField [key "operationName", key "variables", key "extensions"]
      (key "operationName") = some 0 := by decide
  have k1 : lookupField [key "operationName", key "variables", key "extensions"]
      (key "variables") = some 1 := by decide
  have k2 : lookupField [key "operationName", key "variables", key "extensions"]
      (key "extensions") = some 2 := by decide
  obtain ⟨hn, hv1, hv2, hh, hi⟩ := h
  obtain ⟨n, v, e⟩ := o
  have hv : GraphQLVariables.fromJson ({} : GraphQLVariables) v.toJson = .ok v :=
    GraphQLVariables_roundtrip v hv1 hv2
  have he : GraphQLExtensions.fromJson ({} : GraphQLExtensions) e.toJson = .ok e :=
    GraphQLExtensions_roundtrip e hi hh
  simp only [GraphQLOperation.fromJson, GraphQLOperation.toJson, unmarshalStruct, List.foldlM,
    GraphQLOperation.setField, k0, unmarshalString_marshalString _ _ hn]
  simp only [Except.map, bind, Except.bind, GraphQLOperation.setField, k1, k2]
  have hv' : GraphQLVariables.fromJson ({} : GraphQLOperation).Variables v.toJson = .ok v := hv
  have he' : GraphQLExtensions.fromJson ({} : GraphQLOperation).Extensions e.toJson = .ok e :=
    he
  simp only [hv', he']
  rfl

theorem GraphQLResponseItem_roundtrip (i : GraphQLResponseItem)
    (h : ValidString i.Data.Video.SeekPreviewsURL = true) :
    GraphQLResponseItem.fromJson {} i.toJson = .ok i := by
  have k0 : lookupField [key "data"] (key "data") = some 0 := by decide
  have k1 : lookupField [key "video"] (key "video") = some 0 := by decide
  have k2 : lookupField [key "seekPreviewsURL"] (key "seekPreviewsURL") = some 0 := by decide
  obtain ⟨⟨⟨s⟩⟩⟩ := i
  simp only [GraphQLResponseItem.fromJson, GraphQLResponseItem.toJson, unmarshalStruct,
    List.foldlM, GraphQLResponseItem.setField, k0, GraphQLData.fromJson, GraphQLData.toJson,
    GraphQLData.setField, k1, GraphQLVideo.fromJson, GraphQLVideo.toJson,
    GraphQLVideo.setField, k2, unmarshalString_marshalString _ _ h]
  rfl

theorem unmarshalRequest_marshalRequest (r : TwitchGraphQLRequest)
    (h : ∀ o ∈ r, wellFormedOperation o) : unmarshalRequest (marshalRequest r) = .ok r := by
  simp only [unmarshalRequest, marshalRequest, unmarshalSlice]
  exact mapM_map_ok _ _ r (fun o ho => GraphQLOperation_roundtrip o (h o ho))

theorem unmarshalResponse_marshalResponse (r : TwitchGraphQLResponse)
    (h : ∀ i ∈ r, ValidString i.Data.Video.SeekPreviewsURL = true) :
    unmarshalResponse (marshalResponse r) = .ok r := by
  simp only [unmarshalResponse, marshalResponse, unmarshalSlice]
  exact mapM_map_ok _ _ r (fun i hi => GraphQLResponseItem_roundtrip i (h i hi))

/-! ## The requests the client hands to the transport -/

theorem clientLoop_via (env : Env) (ireq : TransportRequest) (fuel : Nat) :
    ∀ (req : TransportRequest) (via : List TransportRequest),
      via <+: (clientLoop env ireq fuel req via).2 := by
  induction fuel with
  | zero =>
    intro req via
    exact List.prefix_refl _
  | succ fuel ih =>
    intro req via
    have hreqs : via <+: via ++ [req] := List.prefix_append _ _
    unfold clientLoop
    simp only []
    split
    · exact hreqs
    · split
      · exact hreqs
      · split
        · exact hreqs
        · split
          · exact hreqs
          · split
            · exact hreqs
            · exact hreqs.trans (ih _ _)

theorem clientLoop_first (env : Env) (ireq : TransportRequest) (fuel : Nat)
    (req : TransportRequest) (via : List TransportRequest) :
    via ++ [req] <+: (clientLoop env ireq (fuel + 1) req via).2 := by
  unfold clientLoop
  simp only []
  split
  · exact List.prefix_refl _
  · split
    · exact List.prefix_refl _
    · split
      · exact List.prefix_refl _
      · split
        · exact List.prefix_refl _
        · split
          · exact List.prefix_refl _
          · exact clientLoop_via env ireq fuel _ _

theorem clientLoop_length (env : Env) (ireq : TransportRequest) (fuel : Nat) :
    ∀ (req : TransportRequest) (via : List TransportRequest),
      (clientLoop env ireq fuel req via).2.length ≤ via.length + fuel := by
  induction fuel with
  | zero =>
    intro req via
    exact Nat.le_refl _
  | succ fuel ih =>
    intro req via
    have hreqs : (via ++ [req]).length ≤ via.length + (fuel + 1) := by
      simp
    unfold clientLoop
    simp only []
    split
    · exact hreqs
    · split
      · exact hreqs
      · split
        · exact hreqs
        · split
          · exact hreqs
          · split
            · exact hreqs
            · refine (ih _ _).trans ?_
              simp
              omega

theorem clientLoop_error (env : Env) (ireq : TransportRequest) (fuel : Nat)
    (req : TransportRequest) (via : List TransportRequest) (err : GoError)
    (h : env.RoundTrip req = .error err) :
    (clientLoop env ireq (fuel + 1) req via).2 = via ++ [req] := by
  unfold clientLoop
  simp only [h]

theorem clientLoop_final (env : Env) (ireq : TransportRequest) (fuel : Nat)
    (req : TransportRequest) (via : List TransportRequest) (resp : HTTPResponse)
    (h : env.RoundTrip req = .ok resp)
    (hfinal : resp.StatusCode ∉ [301, 302, 303, 307, 308] ∨
      resp.Header.Get (lit "Location") = []) :
    (clientLoop env ireq (fuel + 1) req via).2 = via ++ [req] := by
  unfold clientLoop
  simp only [h]
  rcases hfinal with hs | hl
  · have hb : (redirectBehavior req.Method resp.StatusCode).2.1 = false := by
      simp only [List.mem_cons, List.mem_singleton, List.not_mem_nil, or_false, not_or] at hs
      obtain ⟨h1, h2, h3, h4, h5⟩ := hs
      simp [redirectBehavior, h1, h2, h3, h4, h5]
    simp [hb]
  · split
    · rfl
    · simp [hl]

theorem head_of_prefix (x : TransportRequest) (l : List TransportRequest)
    (h : [x] <+: l) : l.head? = some x := by
  obtain ⟨t, rfl⟩ := h
  rfl

/-- The requests the transport receives during `GetVideoInfo` are those of
the one call of `Do`. -/
theorem transportRequests_eq (env : Env) (c : Client) (videoID : GoString)
    (hurl : env.urlParse c.baseURL = none) :
    transportRequests env c videoID = (clientDo env (specRequest c videoID)).2 := by
  unfold transportRequests
  rw [GetVideoInfo_exchange env c videoID hurl]
  simp

/-! ## The handler of `/extract` -/

theorem respondWithError_statusCode (w : server.ResponseWriter) (message : GoString)
    (statusCode : Nat) (hw : w.Status = none) :
    (server.respondWithError w message statusCode).statusCode = statusCode := by
  simp [server.respondWithError, server.ResponseWriter.WriteHeader,
    server.ResponseWriter.Encode, server.ResponseWriter.statusCode, hw]

theorem ExtractVideoID_nil : ExtractVideoID [] = ([], some errInvalidURLFormat) := by decide

/-- A GET request with the right secret whose URL is accepted and whose
resolution fails is answered with the status 500, whatever the failure is. -/
theorem extractHandler_resolution_failure (env : Env) (secret : GoString) (c : Client)
    (r : server.Incoming) (hget : r.Method = lit "GET")
    (hsecret : r.Get (lit "secret") = secret)
    (hid : (ExtractVideoID (r.Get (lit "url"))).2 = none)
    (hfail : (GetVideoInfo env c (ExtractVideoID (r.Get (lit "url"))).1).1.2 ≠ none) :
    (server.extractHandler env secret c r).statusCode = 500 := by
  have hopt : ¬ (lit "GET" = lit "OPTIONS") := by decide
  have hurl : r.Get (lit "url") ≠ [] := by
    intro h
    rw [h, ExtractVideoID_nil] at hid
    cases hid
  unfold server.extractHandler
  simp only [hget, hopt, if_false, ne_eq, not_true_eq_false, hsecret, hurl]
  cases hx : ExtractVideoID (r.Get (lit "url")) with
  | mk videoID e =>
    rw [hx] at hid hfail
    simp only at hid hfail
    subst hid
    simp only []
    cases hg : (GetVideoInfo env c videoID).1 with
    | mk u e2 =>
      rw [hg] at hfail
      cases e2 with
      | none => exact absurd rfl hfail
      | some err =>
        simp only []
        exact respondWithError_statusCode _ _ _ rfl

/-- C1: when the leftmost occurrence of `twitch.tv/videos/` followed by a
digit starts after `pre`, and `ds` is the maximal run of digits following it
(not empty, all digits, the next byte if any not a digit), `ExtractVideoID`
returns `ds` and no error, for the URL as it is and for the URL behind one
leading `@`. -/
theorem ExtractVideoID_digit_run (pre ds rest : GoString) (hne : ds ≠ [])
    (hdig : ∀ b ∈ ds, isDigit b = true)
    (hmax : ∀ b, rest.head? = some b → isDigit b = false)
    (hleft : ∀ pre1 d rest1, isDigit d = true →
      pre ++ videoLiteral ++ ds ++ rest = pre1 ++ videoLiteral ++ d :: rest1 →
      pre.length ≤ pre1.length) :
    ExtractVideoID (pre ++ videoLiteral ++ ds ++ rest) = (ds, none) ∧
    ExtractVideoID (lit "@" ++ (pre ++ videoLiteral ++ ds ++ rest)) = (ds, none) := by
  have hfind := FindStringSubmatch_leftmost pre ds rest hne hdig hmax hleft
  constructor
  · by_cases hat : (pre ++ videoLiteral ++ ds ++ rest).head? = some 0x40
    · cases pre with
      | nil =>
        rw [videoLiteral_eq] at hat
        simp at hat
      | cons b pre =>
        have hb : b = 0x40 := by simpa using hat
        subst hb
        apply ExtractVideoID_of_find _ (videoLiteral ++ ds) ds
        have hcons : (0x40 : UInt8) :: pre ++ videoLiteral ++ ds ++ rest
            = 0x40 :: (pre ++ videoLiteral ++ ds ++ rest) := by simp
        rw [hcons, TrimPrefix_at_cons]
        apply FindStringSubmatch_leftmost pre ds rest hne hdig hmax
        intro pre1 d rest1 hd hs
        have := hleft (0x40 :: pre1) d rest1 hd (by
          simp only [List.cons_append]
          rw [hs])
        simpa using this
    · apply ExtractVideoID_of_find _ (videoLiteral ++ ds) ds
      rw [TrimPrefix_at_other _ hat]
      exact hfind
  · apply ExtractVideoID_of_find _ (videoLiteral ++ ds) ds
    have hcons : lit "@" ++ (pre ++ videoLiteral ++ ds ++ rest)
        = 0x40 :: (pre ++ videoLiteral ++ ds ++ rest) := by
      rw [lit_at]
      rfl
    rw [hcons, TrimPrefix_at_cons]
    exact hfind

/-- C1 at the two URLs of the test table. -/
theorem ExtractVideoID_digit_run_witness :
    ExtractVideoID (lit "https://www.twitch.tv/videos/2515010841") = (lit "2515010841", none) ∧
    ExtractVideoID (lit "@https://www.twitch.tv/videos/1234567890") = (lit "1234567890", none) :=
  ⟨(ExtractVideoID_digit_run (lit "https://www.") (lit "2515010841") [] (by decide) (by decide)
      (by decide) (leftmost_of_no_match _ 12 (by decide))).1,
   (ExtractVideoID_digit_run (lit "https://www.") (lit "1234567890") [] (by decide) (by decide)
      (by decide) (leftmost_of_no_match _ 12 (by decide))).2⟩

/-- C2: a URL with no occurrence of `twitch.tv/videos/` followed by a digit
is refused: the identifier is empty and the error is the one of the invalid
URL format. -/
theorem ExtractVideoID_no_occurrence (url : GoString)
    (h : ¬ ∃ pre d rest, isDigit d = true ∧ url = pre ++ videoLiteral ++ d :: rest) :
    ExtractVideoID url = ([], some (lit "invalid Twitch video URL format")) := by
  apply ExtractVideoID_of_find_nil
  apply FindStringSubmatch_none
  by_cases hat : url.head? = some 0x40
  · cases url with
    | nil => simp at hat
    | cons b t =>
      have hb : b = 0x40 := by simpa using hat
      subst hb
      rw [TrimPrefix_at_cons]
      rintro ⟨pre, d, r, hd, hs⟩
      exact h ⟨0x40 :: pre, d, r, hd, by
        simp only [List.cons_append]
        rw [hs]⟩
  · rw [TrimPrefix_at_other _ hat]
    exact h

/-- An occurrence of the literal followed by a digit is a match at its offset. -/
theorem occurrence_match (s : GoString)
    (h : ∃ pre d rest, isDigit d = true ∧ s = pre ++ videoLiteral ++ d :: rest) :
    ∃ j, j ≤ s.length ∧ matchHere (s.drop j) ≠ none := by
  obtain ⟨pre, d, r, hd, rfl⟩ := h
  refine ⟨pre.length, by simp, ?_⟩
  rw [List.append_assoc, List.drop_left]
  exact matchHere_digit d r hd

/-- C2 at the empty URL, at a URL to another path, at a URL to another domain
and at a URL with another byte in the place of the dot. -/
theorem ExtractVideoID_no_occurrence_witness :
    ExtractVideoID [] = ([], some (lit "invalid Twitch video URL format")) ∧
    ExtractVideoID (lit "https://www.twitch.tv/channel/123")
      = ([], some (lit "invalid Twitch video URL format")) ∧
    ExtractVideoID (lit "https://www.youtube.com/watch?v=123")
      = ([], some (lit "invalid Twitch video URL format")) ∧
    ExtractVideoID (lit "https://www.twitchXtv/videos/123")
      = ([], some (lit "invalid Twitch video URL format")) :=
  ⟨ExtractVideoID_no_occurrence _ (fun h => by
      obtain ⟨j, hj, hm⟩ := occurrence_match _ h
      revert j; decide),
   ExtractVideoID_no_occurrence _ (fun h => by
      obtain ⟨j, hj, hm⟩ := occurrence_match _ h
      revert j; decide),
   ExtractVideoID_no_occurrence _ (fun h => by
      obtain ⟨j, hj, hm⟩ := occurrence_match _ h
      revert j; decide),
   ExtractVideoID_no_occurrence _ (fun h => by
      obtain ⟨j, hj, hm⟩ := occurrence_match _ h
      revert j; decide)⟩

/-- C3: when the exchange gives a decoded response whose first item has a
`seekPreviewsURL` that is not empty, `GetVideoInfo` returns no error and the
URL `p ++ "/chunked/index-dvr.m3u8"`, where `p` is what stands before the
leftmost `/storyboards/` of the `seekPreviewsURL`, or all of it when
`/storyboards/` does not occur in it. -/
theorem GetVideoInfo_manifest (env : Env) (c : Client) (videoID : GoString)
    (resp : HTTPResponse) (body : GoString) (first : GraphQLResponseItem)
    (others : List GraphQLResponseItem) (p : GoString)
    (hurl : env.urlParse c.baseURL = none)
    (hdo : env.Do (specRequest c videoID) = .ok resp)
    (hbody : resp.Body = .ok body)
    (hdec : jsonUnmarshal env body = .ok (first :: others))
    (hne : first.Data.Video.SeekPreviewsURL ≠ [])
    (hp : (∃ r, first.Data.Video.SeekPreviewsURL = p ++ lit "/storyboards/" ++ r ∧
          ∀ p1 r1, first.Data.Video.SeekPreviewsURL = p1 ++ lit "/storyboards/" ++ r1 →
            p.length ≤ p1.length) ∨
      (p = first.Data.Video.SeekPreviewsURL ∧
        ¬ ∃ p1 r1, first.Data.Video.SeekPreviewsURL = p1 ++ lit "/storyboards/" ++ r1)) :
    (GetVideoInfo env c videoID).1 = (p ++ lit "/chunked/index-dvr.m3u8", none) := by
  rw [GetVideoInfo_decoded env c videoID resp body _ hurl hdo hbody hdec]
  unfold streamingURL
  have hemp : first.Data.Video.SeekPreviewsURL.isEmpty = false := by
    cases hs : first.Data.Video.SeekPreviewsURL with
    | nil => exact absurd hs hne
    | cons b t => rfl
  simp only [hemp, Bool.false_eq_true, if_false]
  rw [Split_storyboards _ p hp]

/-- C3 at the two URLs of the test table. -/
theorem GetVideoInfo_manifest_witness :
    (GetVideoInfo
      (sampleEnv 200 (lit "body") (.ok (sampleDoc (lit
        "https://fake-cdn.example.com/video/1234567890/storyboards/1234567890-storyboard-0.jpg"))))
      (New (lit "test_client_id") (lit "https://gql.twitch.tv/gql")) (lit "2515010841")).1
      = (lit "https://fake-cdn.example.com/video/1234567890/chunked/index-dvr.m3u8", none) ∧
    (GetVideoInfo
      (sampleEnv 200 (lit "body") (.ok (sampleDoc (lit "https://example.com/video/123"))))
      (New (lit "test_client_id") (lit "https://gql.twitch.tv/gql")) (lit "2515010841")).1
      = (lit "https://example.com/video/123/chunked/index-dvr.m3u8", none) :=
  ⟨GetVideoInfo_manifest _ _ _ { StatusCode := 200, Body := .ok (lit "body") } (lit "body")
      { Data := { Video := { SeekPreviewsURL := (lit
        "https://fake-cdn.example.com/video/1234567890/storyboards/1234567890-storyboard-0.jpg") } } }
      [] (lit "https://fake-cdn.example.com/video/1234567890")
      rfl rfl rfl (by decide) (by decide)
      (Or.inl ⟨lit "1234567890-storyboard-0.jpg", by decide,
        leftmost_of_no_prefix _ _ 45 (by decide)⟩),
   GetVideoInfo_manifest _ _ _ { StatusCode := 200, Body := .ok (lit "body") } (lit "body")
      { Data := { Video := { SeekPreviewsURL := lit "https://example.com/video/123" } } }
      [] (lit "https://example.com/video/123")
      rfl rfl rfl (by decide) (by decide)
      (Or.inr ⟨rfl, absent_of_no_prefix _ _ (by decide)⟩)⟩

/-- C4: when the exchange gives a decoded response that is empty, or whose
first item has the empty `seekPreviewsURL`, `GetVideoInfo` returns the empty
URL and the error `seekPreviewsURL not found in response`, whatever the
items after the first one are. -/
theorem GetVideoInfo_not_found (env : Env) (c : Client) (videoID : GoString)
    (resp : HTTPResponse) (body : GoString) (response : TwitchGraphQLResponse)
    (hurl : env.urlParse c.baseURL = none)
    (hdo : env.Do (specRequest c videoID) = .ok resp)
    (hbody : resp.Body = .ok body)
    (hdec : jsonUnmarshal env body = .ok response)
    (hempty : response = [] ∨
      ∃ first others, response = first :: others ∧ first.Data.Video.SeekPreviewsURL = []) :
    (GetVideoInfo env c videoID).1
      = ([], some (lit "seekPreviewsURL not found in response")) := by
  rw [GetVideoInfo_decoded env c videoID resp body _ hurl hdo hbody hdec]
  rcases hempty with rfl | ⟨first, others, rfl, hs⟩
  · rfl
  · simp [streamingURL, hs]

/-- C4 at the empty response and at a response whose first item has no URL
and whose second item has one. -/
theorem GetVideoInfo_not_found_witness :
    (GetVideoInfo (sampleEnv 200 (lit "[]") (.ok (Json.arr [])))
      (New (lit "test_client_id") (lit "https://gql.twitch.tv/gql")) (lit "2515010841")).1
      = ([], some (lit "seekPreviewsURL not found in response")) ∧
    (GetVideoInfo
      (sampleEnv 200 (lit "body") (.ok (marshalResponse
        [{}, { Data := { Video := { SeekPreviewsURL := lit "https://example.com/video/123" } } }])))
      (New (lit "test_client_id") (lit "https://gql.twitch.tv/gql")) (lit "2515010841")).1
      = ([], some (lit "seekPreviewsURL not found in response")) :=
  ⟨GetVideoInfo_not_found _ _ _ { StatusCode := 200, Body := .ok (lit "[]") } (lit "[]") []
      rfl rfl rfl (by decide) (Or.inl rfl),
   GetVideoInfo_not_found _ _ _ { StatusCode := 200, Body := .ok (lit "body") } (lit "body")
      [{}, { Data := { Video := { SeekPreviewsURL := lit "https://example.com/video/123" } } }]
      rfl rfl rfl (by decide) (Or.inr ⟨_, _, rfl, rfl⟩)⟩

/-- C5: for every identifier the payload built by `GetVideoInfo` has exactly
three operations, named `VideoPlayer_VODSeekbarPreviewVideo`,
`ComscoreStreamingQuery` and `VodChannelLoginQuery` in this order, each with
the version 1 and its hash of section 6; the variables bind the identifier as
`VideoID` in the first and third operation and as `VodID` in the second;
apart from the variables the payload is the same for all identifiers; and it
is the payload whose JSON document every request handed to the transport
carries. -/
theorem requestPayload_shape (id : GoString) :
    (requestPayload id).length = 3 ∧
    (requestPayload id).map (fun o => o.OperationName) =
      [lit "VideoPlayer_VODSeekbarPreviewVideo", lit "ComscoreStreamingQuery",
        lit "VodChannelLoginQuery"] ∧
    (requestPayload id).map (fun o => o.Extensions.PersistedQuery.Version) = [1, 1, 1] ∧
    (requestPayload id).map (fun o => o.Extensions.PersistedQuery.Sha256Hash) =
      [lit "07e99e4d56c5a7c67117a154777b0baf85a5ffefa393b213f4bc712ccaf85dd6",
        lit "e1edae8122517d013405f237ffcc124515dc6ded82480a88daef69c83b53ac01",
        lit "0c5feea4dad2565508828f16e53fe62614edf015159df4b3bca33423496ce78e"] ∧
    (requestPayload id).map (fun o => o.Variables) =
      [{ VideoID := id, VodID := [] }, { VideoID := [], VodID := id },
        { VideoID := id, VodID := [] }] ∧
    (∀ id2 : GoString,
      (requestPayload id2).map (fun o => { o with Variables := {} }) =
      (requestPayload id).map (fun o => { o with Variables := {} })) ∧
    (∀ (env : Env) (c : Client), ∀ req ∈ (GetVideoInfo env c id).2,
      req.Body = marshalRequest (requestPayload id)) := by
  refine ⟨rfl, rfl, rfl, rfl, rfl, fun _ => rfl, ?_⟩
  intro env c req hreq
  cases hu : env.urlParse c.baseURL with
  | some err =>
    rw [GetVideoInfo_bad_url env c id err hu] at hreq
    simp at hreq
  | none =>
    rw [GetVideoInfo_exchange env c id hu] at hreq
    simp only [List.mem_singleton] at hreq
    rw [hreq]
    rfl

theorem marshalString_lit_names :
    marshalString (lit "VideoPlayer_VODSeekbarPreviewVideo")
      = jstr "VideoPlayer_VODSeekbarPreviewVideo" ∧
    marshalString (lit "ComscoreStreamingQuery") = jstr "ComscoreStreamingQuery" ∧
    marshalString (lit "VodChannelLoginQuery") = jstr "VodChannelLoginQuery" := by
  refine ⟨?_, ?_, ?_⟩ <;> exact congrArg Json.str (by decide)

theorem marshalString_lit_hashes :
    marshalString (lit "07e99e4d56c5a7c67117a154777b0baf85a5ffefa393b213f4bc712ccaf85dd6")
      = jstr "07e99e4d56c5a7c67117a154777b0baf85a5ffefa393b213f4bc712ccaf85dd6" ∧
    marshalString (lit "e1edae8122517d013405f237ffcc124515dc6ded82480a88daef69c83b53ac01")
      = jstr "e1edae8122517d013405f237ffcc124515dc6ded82480a88daef69c83b53ac01" ∧
    marshalString (lit "0c5feea4dad2565508828f16e53fe62614edf015159df4b3bca33423496ce78e")
      = jstr "0c5feea4dad2565508828f16e53fe62614edf015159df4b3bca33423496ce78e" := by
  refine ⟨?_, ?_, ?_⟩ <;> exact congrArg Json.str (by decide)

/-- The document written for the payload of an identifier that is not empty:
the body of section 6 with the runes of the identifier in the place of `<id>`. -/
theorem marshalRequest_requestPayload (id : GoString) (hne : id ≠ []) :
    marshalRequest (requestPayload id) = specRequestBody (stringRunes id) := by
  have hemp : id.isEmpty = false := by
    cases id with
    | nil => exact absurd rfl hne
    | cons b t => rfl
  obtain ⟨h1, h2, h3⟩ := marshalString_lit_names
  obtain ⟨h4, h5, h6⟩ := marshalString_lit_hashes
  have hid : marshalString id = Json.str (stringRunes id) := rfl
  simp only [marshalRequest, requestPayload, specRequestBody, List.map_cons, List.map_nil,
    GraphQLOperation.toJson, GraphQLVariables.toJson, GraphQLExtensions.toJson,
    PersistedQuery.toJson, hemp, Bool.false_eq_true, if_false, List.isEmpty_nil, if_true,
    List.append_nil, List.nil_append, h1, h2, h3, h4, h5, h6, hid]

/-- The document written for the payload of the empty identifier. -/
theorem marshalRequest_requestPayload_nil :
    marshalRequest (requestPayload []) =
      Json.arr [
        Json.obj [(key "operationName", jstr "VideoPlayer_VODSeekbarPreviewVideo"),
          (key "variables", Json.obj []),
          (key "extensions", Json.obj [(key "persistedQuery", Json.obj [
            (key "version", Json.int 1),
            (key "sha256Hash",
              jstr "07e99e4d56c5a7c67117a154777b0baf85a5ffefa393b213f4bc712ccaf85dd6")])])],
        Json.obj [(key "operationName", jstr "ComscoreStreamingQuery"),
          (key "variables", Json.obj []),
          (key "extensions", Json.obj [(key "persistedQuery", Json.obj [
            (key "version", Json.int 1),
            (key "sha256Hash",
              jstr "e1edae8122517d013405f237ffcc124515dc6ded82480a88daef69c83b53ac01")])])],
        Json.obj [(key "operationName", jstr "VodChannelLoginQuery"),
          (key "variables", Json.obj []),
          (key "extensions", Json.obj [(key "persistedQuery", Json.obj [
            (key "version", Json.int 1),
            (key "sha256Hash",
              jstr "0c5feea4dad2565508828f16e53fe62614edf015159df4b3bca33423496ce78e")])])]] := by
  obtain ⟨h1, h2, h3⟩ := marshalString_lit_names
  obtain ⟨h4, h5, h6⟩ := marshalString_lit_hashes
  simp only [marshalRequest, requestPayload, List.map_cons, List.map_nil,
    GraphQLOperation.toJson, GraphQLVariables.toJson, GraphQLExtensions.toJson,
    PersistedQuery.toJson, List.isEmpty_nil, if_true, List.append_nil, h1, h2, h3, h4, h5, h6]

/-- C6, amended: for every identifier that is not empty and is valid UTF-8,
the JSON document of the request body is the one of section 6 of the
specification with the identifier itself in the place of `<id>` (a JSON
string whose text has the bytes of the identifier): the variables of the
first and third operation hold exactly the key `videoID` and those of the
second exactly the key `vodID`, each with the identifier as its value; and
every request that `GetVideoInfo` passes to `httpClient.Do` carries this
document. -/
theorem request_body_shape (id : GoString) (hne : id ≠ []) (hv : ValidString id = true) :
    ∃ idText : List Nat, textBytes idText = id ∧
      marshalRequest (requestPayload id) = specRequestBody idText ∧
      (∀ (env : Env) (c : Client), ∀ req ∈ (GetVideoInfo env c id).2,
        req.Body = specRequestBody idText) := by
  refine ⟨stringRunes id, decodeRunes_valid id.length id (le_refl _) hv,
    marshalRequest_requestPayload id hne, ?_⟩
  intro env c req hreq
  rw [← marshalRequest_requestPayload id hne]
  cases hu : env.urlParse c.baseURL with
  | some err =>
    rw [GetVideoInfo_bad_url env c id err hu] at hreq
    simp at hreq
  | none =>
    rw [GetVideoInfo_exchange env c id hu] at hreq
    simp only [List.mem_singleton] at hreq
    rw [hreq]
    rfl

/-- C6, amended, at the identifier of the tests. -/
theorem request_body_shape_witness :
    lit "2515010841" ≠ [] ∧ ValidString (lit "2515010841") = true ∧
    ∃ idText : List Nat, textBytes idText = lit "2515010841" ∧
      marshalRequest (requestPayload (lit "2515010841")) = specRequestBody idText ∧
      (∀ (env : Env) (c : Client), ∀ req ∈ (GetVideoInfo env c (lit "2515010841")).2,
        req.Body = specRequestBody idText) :=
  ⟨by decide, by decide, request_body_shape (lit "2515010841") (by decide) (by decide)⟩

/-- C6 fails at the empty identifier and at an identifier that is not valid
UTF-8. For the empty identifier `omitempty` leaves both keys out: the three
`variables` objects are empty and the body is the one of section 6 for no
text. For the identifier made of the byte `0xFF` the body holds the
replacement character U+FFFD, whose bytes are not the identifier, and it is
the body of section 6 for no text with the bytes of the identifier. Both
bodies are what `GetVideoInfo` passes to `httpClient.Do`. -/
theorem request_body_not_the_id :
    (¬ ∃ idText : List Nat, marshalRequest (requestPayload []) = specRequestBody idText) ∧
    marshalRequest (requestPayload [0xFF]) = specRequestBody [0xFFFD] ∧
    textBytes [0xFFFD] = [0xEF, 0xBF, 0xBD] ∧
    (¬ ∃ idText : List Nat, textBytes idText = [0xFF] ∧
      marshalRequest (requestPayload [0xFF]) = specRequestBody idText) ∧
    (GetVideoInfo (sampleEnv 200 (lit "[]") (.ok (Json.arr [])))
        (New (lit "test_client_id") (lit "https://gql.twitch.tv/gql")) []).2.map
        (fun req => req.Body) = [marshalRequest (requestPayload [])] ∧
    (GetVideoInfo (sampleEnv 200 (lit "[]") (.ok (Json.arr [])))
        (New (lit "test_client_id") (lit "https://gql.twitch.tv/gql")) [0xFF]).2.map
        (fun req => req.Body) = [marshalRequest (requestPayload [0xFF])] := by
  have hff : stringRunes [0xFF] = [0xFFFD] := by decide
  have hbody : marshalRequest (requestPayload [0xFF]) = specRequestBody [0xFFFD] := by
    rw [marshalRequest_requestPayload [0xFF] (by decide), hff]
  refine ⟨?_, hbody, by decide, ?_, ?_, ?_⟩
  · rintro ⟨idText, h⟩
    rw [marshalRequest_requestPayload_nil] at h
    simp [specRequestBody] at h
  · rintro ⟨idText, htext, h⟩
    rw [hbody] at h
    have hid : idText = [0xFFFD] := by
      simp only [specRequestBody, Json.arr.injEq, List.cons.injEq, Json.obj.injEq,
        Prod.mk.injEq, Json.str.injEq, true_and, and_true, and_self] at h
      exact h.symm
    rw [hid] at htext
    exact absurd htext (by decide)
  · rw [GetVideoInfo_exchange _ _ _ rfl]
    rfl
  · rw [GetVideoInfo_exchange _ _ _ rfl]
    rfl

/-- C7: when the body of the response does not decode (`json.Unmarshal`
returns the error `err`), `GetVideoInfo` returns the empty URL and the error
`error parsing response: ` followed by `err`, which is not the error of the
missing `seekPreviewsURL`. -/
theorem GetVideoInfo_parse_error (env : Env) (c : Client) (videoID : GoString)
    (resp : HTTPResponse) (body : GoString) (err : GoError)
    (hurl : env.urlParse c.baseURL = none)
    (hdo : env.Do (specRequest c videoID) = .ok resp)
    (hbody : resp.Body = .ok body)
    (hdec : jsonUnmarshal env body = .error err) :
    (GetVideoInfo env c videoID).1 = ([], some (lit "error parsing response: " ++ err)) ∧
    (GetVideoInfo env c videoID).1.2 ≠ some (lit "seekPreviewsURL not found in response") := by
  have h : (GetVideoInfo env c videoID).1
      = ([], some (lit "error parsing response: " ++ err)) := by
    rw [GetVideoInfo_exchange env c videoID hurl]
    simp [hdo, hbody, hdec]
  refine ⟨h, ?_⟩
  rw [h]
  intro heq
  have h0 := congrArg (fun o => o.bind List.head?) heq
  have h1 : (lit "error parsing response: " ++ err).head? = some 0x65 := by
    have : lit "error parsing response: " = 0x65 :: lit "rror parsing response: " := by decide
    rw [this]
    rfl
  have h2 : (lit "seekPreviewsURL not found in response").head? = some 0x73 := by decide
  simp only [Option.some_bind] at h0
  rw [h1, h2] at h0
  exact absurd h0 (by decide)

/-- C7 at the text `invalid json`, at the plain text of an HTTP 500 reply and
at a JSON text that is an object. -/
theorem GetVideoInfo_parse_error_witness :
    (GetVideoInfo (sampleEnv 200 (lit "invalid json") (.error (lit "invalid character")))
      (New (lit "test_client_id") (lit "https://gql.twitch.tv/gql")) (lit "2515010841")).1
      = ([], some (lit "error parsing response: invalid character")) ∧
    (GetVideoInfo
      (sampleEnv 500 (lit "Internal Server Error\n") (.error (lit "invalid character")))
      (New (lit "test_client_id") (lit "https://gql.twitch.tv/gql")) (lit "2515010841")).1
      = ([], some (lit "error parsing response: invalid character")) ∧
    (GetVideoInfo (sampleEnv 200 (lit "body") (.ok (Json.obj [])))
      (New (lit "test_client_id") (lit "https://gql.twitch.tv/gql")) (lit "2515010841")).1
      = ([], some (lit ("error parsing response: json: cannot unmarshal object into Go value"
          ++ " of type twitch.TwitchGraphQLResponse"))) :=
  ⟨(GetVideoInfo_parse_error
      (sampleEnv 200 (lit "invalid json") (.error (lit "invalid character")))
      (New (lit "test_client_id") (lit "https://gql.twitch.tv/gql")) (lit "2515010841")
      { StatusCode := 200, Body := .ok (lit "invalid json") }
      (lit "invalid json") (lit "invalid character") rfl (by decide) rfl (by decide)).1,
   (GetVideoInfo_parse_error
      (sampleEnv 500 (lit "Internal Server Error\n") (.error (lit "invalid character")))
      (New (lit "test_client_id") (lit "https://gql.twitch.tv/gql")) (lit "2515010841")
      { StatusCode := 500, Body := .ok (lit "Internal Server Error\n") }
      (lit "Internal Server Error\n") (lit "invalid character") rfl (by decide) rfl
      (by decide)).1,
   (GetVideoInfo_parse_error (sampleEnv 200 (lit "body") (.ok (Json.obj [])))
      (New (lit "test_client_id") (lit "https://gql.twitch.tv/gql")) (lit "2515010841")
      { StatusCode := 200, Body := .ok (lit "body") }
      (lit "body") (lit ("json: cannot unmarshal object into Go value"
          ++ " of type twitch.TwitchGraphQLResponse")) rfl (by decide) rfl (by decide)).1⟩

/-- C8, amended: a `TwitchGraphQLRequest` whose strings are valid UTF-8 (the
versions being Go `int`s) is read back field for field from the JSON document
written for it, the fields that `omitempty` drops included; and so is a
`TwitchGraphQLResponse` whose strings are valid UTF-8. -/
theorem json_roundtrip (request : TwitchGraphQLRequest) (response : TwitchGraphQLResponse)
    (hreq : ∀ o ∈ request, wellFormedOperation o)
    (hresp : ∀ i ∈ response, ValidString i.Data.Video.SeekPreviewsURL = true) :
    unmarshalRequest (marshalRequest request) = .ok request ∧
    unmarshalResponse (marshalResponse response) = .ok response :=
  ⟨unmarshalRequest_marshalRequest request hreq,
    unmarshalResponse_marshalResponse response hresp⟩

/-- C8, amended, at the payload of the tests followed by an operation with
no variable at all, and at the response of the tests. -/
theorem json_roundtrip_witness :
    unmarshalRequest (marshalRequest (requestPayload (lit "2515010841") ++ [({} : GraphQLOperation)]))
      = .ok (requestPayload (lit "2515010841") ++ [({} : GraphQLOperation)]) ∧
    unmarshalResponse (marshalResponse
      [{ Data := { Video := { SeekPreviewsURL := lit "https://example.com/video/123" } } }])
      = .ok [{ Data := { Video := { SeekPreviewsURL := lit "https://example.com/video/123" } } }] :=
  json_roundtrip (requestPayload (lit "2515010841") ++ [({} : GraphQLOperation)])
    [{ Data := { Video := { SeekPreviewsURL := lit "https://example.com/video/123" } } }]
    (by decide) (by decide)

/-- C8 fails at a string that is not valid UTF-8: the operation name made of
the byte `0xFF` is written as the replacement character and read back as the
three bytes of U+FFFD; the same holds for a `seekPreviewsURL`. -/
theorem json_roundtrip_invalid_utf8 :
    unmarshalRequest (marshalRequest [{ OperationName := [0xFF] }])
      = .ok [{ OperationName := [0xEF, 0xBF, 0xBD] }] ∧
    unmarshalRequest (marshalRequest [{ OperationName := [0xFF] }])
      ≠ .ok [{ OperationName := [0xFF] }] ∧
    unmarshalResponse (marshalResponse [{ Data := { Video := { SeekPreviewsURL := [0xFF] } } }])
      ≠ .ok [{ Data := { Video := { SeekPreviewsURL := [0xFF] } } }] := by
  decide

/-- C9, amended: `New` stores the client identifier and the endpoint
unchanged. For a client built by `New`, `GetVideoInfo` makes no call of
`httpClient.Do` and the transport receives nothing when the request cannot be
built (the endpoint does not parse as a URL). Otherwise it calls
`httpClient.Do` exactly once, with a POST to the endpoint whose header
`Accept` is `application/json` and whose header `Client-Id` is the client
identifier; this request is the first the transport receives, the transport
receives at most 10 requests, and it receives this one only when it fails on
it or answers it with a response that is not a redirect (a status other than
301, 302, 303, 307 and 308, or no `Location`). -/
theorem GetVideoInfo_one_Do_call (env : Env) (clientID baseURL videoID : GoString) :
    (New clientID baseURL).clientID = clientID ∧
    (New clientID baseURL).baseURL = baseURL ∧
    (env.urlParse baseURL ≠ none →
      (GetVideoInfo env (New clientID baseURL) videoID).2 = [] ∧
      transportRequests env (New clientID baseURL) videoID = []) ∧
    (env.urlParse baseURL = none →
      ∃ req, (GetVideoInfo env (New clientID baseURL) videoID).2 = [req] ∧
        req.Method = lit "POST" ∧ req.URL = baseURL ∧
        req.Header.Get (lit "Accept") = lit "application/json" ∧
        req.Header.Get (lit "Client-Id") = clientID ∧
        (transportRequests env (New clientID baseURL) videoID).head? = some req.toTransport ∧
        (transportRequests env (New clientID baseURL) videoID).length ≤ 10 ∧
        (∀ err, env.RoundTrip req.toTransport = .error err →
          transportRequests env (New clientID baseURL) videoID = [req.toTransport]) ∧
        (∀ resp, env.RoundTrip req.toTransport = .ok resp →
          (resp.StatusCode ∉ [301, 302, 303, 307, 308] ∨
            resp.Header.Get (lit "Location") = []) →
          transportRequests env (New clientID baseURL) videoID = [req.toTransport])) := by
  refine ⟨rfl, rfl, ?_, ?_⟩
  · intro h
    cases hu : env.urlParse baseURL with
    | none => exact absurd hu h
    | some err =>
      unfold transportRequests
      rw [GetVideoInfo_bad_url env (New clientID baseURL) videoID err hu]
      exact ⟨rfl, rfl⟩
  · intro h
    have htr := transportRequests_eq env (New clientID baseURL) videoID h
    refine ⟨specRequest (New clientID baseURL) videoID, ?_, rfl, rfl, ?_, ?_, ?_, ?_, ?_, ?_⟩
    · rw [GetVideoInfo_exchange env (New clientID baseURL) videoID h]
    · have h1 : CanonicalHeaderKey (lit "Accept") = lit "Accept" := by decide
      have h3 : (lit "Accept" == lit "Client-Id") = false := by decide
      simp [Header.Get, specRequest, h1, List.lookup, h3]
    · have h2 : CanonicalHeaderKey (lit "Client-Id") = lit "Client-Id" := by decide
      simp [Header.Get, specRequest, h2, List.lookup, New]
    · rw [htr]
      exact head_of_prefix _ _ (clientLoop_first env _ 9 _ [])
    · rw [htr]
      have := clientLoop_length env (specRequest (New clientID baseURL) videoID).toTransport 10
        (specRequest (New clientID baseURL) videoID).toTransport []
      simpa [clientDo] using this
    · intro err herr
      rw [htr]
      exact clientLoop_error env _ 9 _ [] err herr
    · intro resp hresp hfinal
      rw [htr]
      exact clientLoop_final env _ 9 _ [] resp hresp hfinal

/-- C9 fails at a redirect: when the endpoint answers the POST with the
status 307 and a `Location`, the one call of `httpClient.Do` hands the
transport two requests, both POST. -/
theorem GetVideoInfo_redirect_two_requests :
    (GetVideoInfo (redirectEnv 307)
      (New (lit "test_client_id") (lit "https://gql.twitch.tv/gql")) (lit "2515010841")).2.length
      = 1 ∧
    (transportRequests (redirectEnv 307)
      (New (lit "test_client_id") (lit "https://gql.twitch.tv/gql")) (lit "2515010841")).map
      (fun req => (req.Method, req.URL))
      = [(lit "POST", lit "https://gql.twitch.tv/gql"),
         (lit "POST", lit "https://gql.twitch.tv/v2")] ∧
    (transportRequests (redirectEnv 307)
      (New (lit "test_client_id") (lit "https://gql.twitch.tv/gql")) (lit "2515010841")).length
      ≠ 1 := by
  decide

/-- C10, amended: for a GET request to `/extract`, a secret that differs
from the configured one gives the status 401; with the right secret a URL
that `ExtractVideoID` refuses gives 400; and with the right secret and an
accepted URL every failure of `GetVideoInfo` gives 500. -/
theorem extractHandler_status (env : Env) (secret : GoString) (c : Client)
    (r : server.Incoming) (hget : r.Method = lit "GET") :
    (r.Get (lit "secret") ≠ secret →
      (server.extractHandler env secret c r).statusCode = 401) ∧
    (r.Get (lit "secret") = secret → (ExtractVideoID (r.Get (lit "url"))).2 ≠ none →
      (server.extractHandler env secret c r).statusCode = 400) ∧
    (r.Get (lit "secret") = secret → (ExtractVideoID (r.Get (lit "url"))).2 = none →
      (GetVideoInfo env c (ExtractVideoID (r.Get (lit "url"))).1).1.2 ≠ none →
      (server.extractHandler env secret c r).statusCode = 500) := by
  have hopt : ¬ (lit "GET" = lit "OPTIONS") := by decide
  refine ⟨?_, ?_, extractHandler_resolution_failure env secret c r hget⟩
  · intro hs
    unfold server.extractHandler
    simp only [hget, hopt, if_false, ne_eq, not_true_eq_false, hs, not_false_eq_true, if_true]
    exact respondWithError_statusCode _ _ _ rfl
  · intro hs herr
    unfold server.extractHandler
    simp only [hget, hopt, if_false, ne_eq, not_true_eq_false, hs]
    by_cases hurl : r.Get (lit "url") = []
    · simp only [hurl, if_true]
      exact respondWithError_statusCode _ _ _ rfl
    · simp only [hurl, if_false]
      cases hx : ExtractVideoID (r.Get (lit "url")) with
      | mk videoID e =>
        rw [hx] at herr
        cases e with
        | none => exact absurd rfl herr
        | some err =>
          simp only []
          exact respondWithError_statusCode _ _ _ rfl

/-- C10, amended, at three requests: a wrong secret, a URL to a channel, and
a video URL whose resolution finds an empty response. -/
theorem extractHandler_status_witness :
    (server.extractHandler (sampleEnv 200 (lit "[]") (.ok (Json.arr []))) (lit "s3cret")
      (New (lit "id") (lit "https://gql.twitch.tv/gql"))
      { Method := lit "GET", Query := [(lit "url", [lit "https://www.twitch.tv/videos/1"]),
          (lit "secret", [lit "guess"])] }).statusCode = 401 ∧
    (server.extractHandler (sampleEnv 200 (lit "[]") (.ok (Json.arr []))) (lit "s3cret")
      (New (lit "id") (lit "https://gql.twitch.tv/gql"))
      { Method := lit "GET", Query := [(lit "url", [lit "https://www.twitch.tv/channel/123"]),
          (lit "secret", [lit "s3cret"])] }).statusCode = 400 ∧
    (server.extractHandler (sampleEnv 200 (lit "[]") (.ok (Json.arr []))) (lit "s3cret")
      (New (lit "id") (lit "https://gql.twitch.tv/gql"))
      { Method := lit "GET", Query := [(lit "url", [lit "https://www.twitch.tv/videos/1"]),
          (lit "secret", [lit "s3cret"])] }).statusCode = 500 :=
  ⟨(extractHandler_status _ _ _ _ rfl).1 (by decide),
   (extractHandler_status _ _ _ _ rfl).2.1 (by decide) (by decide),
   (extractHandler_status _ _ _ _ rfl).2.2 (by decide) (by decide) (by decide)⟩

/-- C10 fails: no failure of `GetVideoInfo` is answered with the status 400.
A response that does not parse and a response without manifest both give
500, and so does every other failure. -/
theorem extractHandler_never_400 :
    (server.extractHandler
      (sampleEnv 200 (lit "invalid json") (.error (lit "invalid character"))) (lit "s3cret")
      (New (lit "id") (lit "https://gql.twitch.tv/gql"))
      { Method := lit "GET", Query := [(lit "url", [lit "https://www.twitch.tv/videos/1"]),
          (lit "secret", [lit "s3cret"])] }).statusCode = 500 ∧
    (server.extractHandler (sampleEnv 200 (lit "[]") (.ok (Json.arr []))) (lit "s3cret")
      (New (lit "id") (lit "https://gql.twitch.tv/gql"))
      { Method := lit "GET", Query := [(lit "url", [lit "https://www.twitch.tv/videos/1"]),
          (lit "secret", [lit "s3cret"])] }).statusCode = 500 ∧
    ¬ ∃ (env : Env) (secret : GoString) (c : Client) (r : server.Incoming),
      r.Method = lit "GET" ∧ r.Get (lit "secret") = secret ∧
      (ExtractVideoID (r.Get (lit "url"))).2 = none ∧
      (GetVideoInfo env c (ExtractVideoID (r.Get (lit "url"))).1).1.2 ≠ none ∧
      (server.extractHandler env secret c r).statusCode = 400 := by
  refine ⟨by decide, by decide, ?_⟩
  rintro ⟨env, secret, c, r, hget, hs, hid, hfail, h400⟩
  rw [extractHandler_resolution_failure env secret c r hget hs hid hfail] at h400
  cases h400

end twitch
